import Mathlib

/-!
# pandas_arrow: frequency codes, calendar offsets and date ranges

A shallow embedding of `src/core.cpp` (namespace `pd`): the frequency-code
splitter `splitTimeSpan`, the calendar-offset resolver `DateOffset::FromString`,
the stepping operation `DateOffset::add`, the calendar `date_range` family
dispatched by `switchFunction`, the sub-day resolver `duration_from_string`,
the date-time `date_range` overloads and the integer `range`.

Conventions.
* `std::string` is a list of characters (one `Char` per code unit); the
  classification functions `std::isalpha` / `std::isdigit` are read in the
  default "C" locale, where they accept exactly the ASCII letters / digits.
* C++ `int` values are integers (`Int`); where the source converts text to an
  `int` the 32-bit bounds are checked explicitly.
* A C++ exception is an `Except.error`; the constructors of `Error` name the
  exception classes that the code and the libraries it calls can raise.
* `boost::gregorian` is embedded by its documented contract: a `date` names a
  day of the proleptic Gregorian calendar, the supported years are
  1400..9999, constructing a date outside that range raises `bad_year`.
* `boost::posix_time` values are positions on the time line counted in
  nanoseconds; their arithmetic is exact (signed overflow of the 64-bit tick
  counter is undefined in C++ and outside the embedding).
-/

namespace pd

/-! ## Strings, errors, `std::stoi` -/

/-- A `std::string`, as the list of its characters. -/
abbrev CppString := List Char

/-- The exceptions that can leave the embedded functions. -/
inductive Error where
  /-- The exception `std::runtime_error(what)` thrown by the code of `core.cpp`. -/
  | runtime_error (what : String)
  /-- The exception `std::invalid_argument`, from `std::stoi` when no digits are found. -/
  | invalid_argument
  /-- The exception `std::out_of_range`, from `std::stoi` when the value does not fit `int`. -/
  | out_of_range
  /-- The exception `boost::gregorian::bad_year`: a year outside 1400..9999. -/
  | bad_year
  /-- The exception `boost::gregorian::bad_month`: a month outside 1..12. -/
  | bad_month
  /-- The exception `boost::gregorian::bad_day_of_month`: a day the month does not have. -/
  | bad_day_of_month
  /-- The iteration budget of a loop model ran out (no source counterpart). -/
  | out_of_fuel
  deriving DecidableEq, Repr

/-- Largest value of a C++ `int` (32 bits). -/
def INT_MAX : Int := 2147483647

/-- Smallest value of a C++ `int` (32 bits). -/
def INT_MIN : Int := -2147483648

/-- The value of a 32-bit `int` result after two's-complement wrap-around. -/
def int32_wrap (x : Int) : Int :=
  (x + 2147483648) % 4294967296 - 2147483648

/-- The function `std::isspace` in the "C" locale: space, `\t`, `\n`, `\v`, `\f`, `\r`. -/
def isspace (c : Char) : Bool :=
  c.toNat = 32 || (9 ≤ c.toNat && c.toNat ≤ 13)

/-- Value of one decimal digit character. -/
def digitVal (c : Char) : Nat := c.toNat - 48

/-- Value of a run of decimal digits read left to right, as `strtol` accumulates it. -/
def decimalValue (ds : List Char) : Nat :=
  ds.foldl (fun acc c => 10 * acc + digitVal c) 0

/-- The optional sign that `strtol` reads before the digits: whether the number
is negated, and the text that follows the sign. -/
def stoi_sign (s : CppString) : Bool × CppString :=
  match s with
  | '-' :: t => (true, t)
  | '+' :: t => (false, t)
  | _ => (false, s)

/-- The function `std::stoi(str)` with the default base 10: skip leading white space, read an
optional sign, then the longest run of decimal digits; `invalid_argument` when
there is no digit, `out_of_range` when the value does not fit an `int`. -/
def stoi (str : CppString) : Except Error Int :=
  let signed := stoi_sign (str.dropWhile isspace)
  let ds := signed.2.takeWhile Char.isDigit
  if ds = [] then
    Except.error Error.invalid_argument
  else
    let v : Int := if signed.1 then -(decimalValue ds : Int) else (decimalValue ds : Int)
    if v < INT_MIN ∨ INT_MAX < v then Except.error Error.out_of_range else Except.ok v

/-! ## `splitTimeSpan` (core.cpp, lines 110-133) -/

/-- The function `splitTimeSpan(freq)`: `it` is the position of the first alphabetic
character; the unit is everything from `it` on; when `it` is not the beginning,
the text before it goes through `std::stoi`; otherwise (the string starts with a
letter, or is empty) any digit anywhere raises `runtime_error`. -/
def splitTimeSpan (freq : CppString) : Except Error (CppString × Int) :=
  let beforeIt := freq.takeWhile (fun x => !x.isAlpha)
  let freq_unit := freq.dropWhile (fun x => !x.isAlpha)
  if beforeIt ≠ [] then
    match stoi beforeIt with
    | Except.ok freq_value => Except.ok (freq_unit, freq_value)
    | Except.error e => Except.error e
  else if freq.any Char.isDigit then
    Except.error (Error.runtime_error ("Invalid time offset " ++ String.mk freq))
  else
    Except.ok (freq_unit, 1)

/-! ## `DateOffset` and `DateOffset::FromString` (core.cpp, lines 62-108) -/

/-- The enumeration `DateOffset::Type`. -/
inductive DateOffset.Type where
  | Day | MonthEnd | MonthStart | QuarterStart | QuarterEnd
  | WeekEnd | WeekStart | YearEnd | YearStart
  deriving DecidableEq, Repr

/-- A calendar offset: a unit kind and an `int` multiplier. -/
structure DateOffset where
  type : DateOffset.Type
  multiplier : Int
  deriving DecidableEq, Repr

/-- The function `DateOffset::FromString(code)`: split the code (exceptions of
`splitTimeSpan` propagate), then map the unit text to a kind; an unknown unit
gives `std::nullopt`. -/
def DateOffset.FromString (code : CppString) : Except Error (Option DateOffset) :=
  match splitTimeSpan code with
  | Except.error e => Except.error e
  | Except.ok (freq_unit, mul) =>
    if freq_unit = "D".toList then
      Except.ok (some ⟨DateOffset.Type.Day, mul⟩)
    else if freq_unit = "WS".toList then
      Except.ok (some ⟨DateOffset.Type.WeekStart, mul⟩)
    else if freq_unit = "W".toList then
      Except.ok (some ⟨DateOffset.Type.WeekEnd, mul⟩)
    else if freq_unit = "MS".toList then
      Except.ok (some ⟨DateOffset.Type.MonthStart, mul⟩)
    else if freq_unit = "M".toList then
      Except.ok (some ⟨DateOffset.Type.MonthEnd, mul⟩)
    else if freq_unit = "Y".toList then
      Except.ok (some ⟨DateOffset.Type.YearEnd, mul⟩)
    else if freq_unit = "YS".toList then
      Except.ok (some ⟨DateOffset.Type.YearStart, mul⟩)
    else if freq_unit = "Q".toList then
      Except.ok (some ⟨DateOffset.Type.QuarterEnd, mul⟩)
    else if freq_unit = "QS".toList then
      Except.ok (some ⟨DateOffset.Type.QuarterStart, mul⟩)
    else
      Except.ok none

/-! ## `boost::gregorian` dates -/

/-- A day of the proleptic Gregorian calendar, by year, month and day of month
(what `date::year_month_day()` reports for a `boost::gregorian::date`). -/
structure date where
  year : Int
  month : Int
  day : Int
  deriving DecidableEq, Repr

/-- The function `gregorian_calendar::is_leap_year`. -/
def is_leap_year (year : Int) : Bool :=
  (year % 4 == 0) && ((year % 100 != 0) || (year % 400 == 0))

/-- The function `gregorian_calendar::end_of_month_day`: the number of days of a month. -/
def end_of_month_day (year month : Int) : Int :=
  if month = 2 then
    if is_leap_year year then 29 else 28
  else if month = 4 ∨ month = 6 ∨ month = 9 ∨ month = 11 then 30
  else 31

/-- A valid calendar date: a year in the supported range 1400..9999, a month in
1..12 and a day that the month has. -/
def date.valid (d : date) : Prop :=
  (1400 ≤ d.year ∧ d.year ≤ 9999) ∧ (1 ≤ d.month ∧ d.month ≤ 12) ∧
    (1 ≤ d.day ∧ d.day ≤ end_of_month_day d.year d.month)

instance (d : date) : Decidable d.valid := by
  unfold date.valid
  exact inferInstance

/-- The constructor `date(year, month, day)`: `greg_year`, `greg_month` and
`greg_day` check their ranges, then the day is checked against the month. -/
def mkDate (year month day : Int) : Except Error date :=
  if year < 1400 ∨ 9999 < year then Except.error Error.bad_year
  else if month < 1 ∨ 12 < month then Except.error Error.bad_month
  else if day < 1 ∨ 31 < day then Except.error Error.bad_day_of_month
  else if end_of_month_day year month < day then Except.error Error.bad_day_of_month
  else Except.ok ⟨year, month, day⟩

/-- The accessor `date::year_month_day()` (and with it `year()`, `month()`,
`day()`): the year of the result is a `greg_year`, so a date that day
arithmetic has carried outside 1400..9999 raises `bad_year` here. -/
def date.year_month_day (d : date) : Except Error date :=
  if d.year < 1400 ∨ 9999 < d.year then Except.error Error.bad_year else Except.ok d

/-- The function `gregorian_calendar::day_number`: the serial number of a day. -/
def day_number (ymd : date) : Int :=
  let a := (14 - ymd.month) / 12
  let y := ymd.year + 4800 - a
  let m := ymd.month + 12 * a - 3
  ymd.day + ((153 * m + 2) / 5) + 365 * y + (y / 4) - (y / 100) + (y / 400) - 32045

/-- The function `gregorian_calendar::from_day_number`: the day with a given serial number. -/
def from_day_number (dayNumber : Int) : date :=
  let a := dayNumber + 32044
  let b := (4 * a + 3) / 146097
  let c := a - ((146097 * b) / 4)
  let d := (4 * c + 3) / 1461
  let e := c - (1461 * d) / 4
  let m := (5 * e + 2) / 153
  ⟨100 * b + d - 4800 + (m / 10), m + 3 - 12 * (m / 10), e - ((153 * m + 2) / 5) + 1⟩

/-- The sum `d + days(n)` (and `d - days(k)` as `n = -k`): arithmetic on the serial
number; no range check is made by this operation. -/
def addDays (d : date) (n : Int) : date :=
  from_day_number (day_number d + n)

/-- The function `wrapping_int2<short,1,12>::add(v)` on a month number `value`: the new month
number and the number of years wrapped. C++ `%` and `/` truncate. -/
def wrapping_int2_add (value v : Int) : Int × Int :=
  let remainder := Int.tmod v 12
  let overflow := Int.tdiv v 12
  let value1 := value + remainder
  if 12 < value1 then (value1 - 12, overflow + 1)
  else if value1 < 1 then (value1 + 12, overflow - 1)
  else (value1, overflow)

/-- The function `month_functor::get_offset(d)` followed by `d + offset`: the date `f` months
after `d`. `origDayOfMonth` is the functor's remembered day of month (0: not yet
set, -1: last day of month); the result carries its new value. A date that was
the last day of its month stays a last day of month, otherwise the day is kept
and clipped to the length of the target month. The target year is a
`greg_year`: outside 1400..9999 it raises `bad_year`. -/
def month_functor_step (origDayOfMonth f : Int) (d : date) : Except Error (Int × date) :=
  match d.year_month_day with
  | Except.error e => Except.error e
  | Except.ok ymd =>
    let orig : Int :=
      if origDayOfMonth = 0 then
        if end_of_month_day ymd.year ymd.month = ymd.day then -1 else ymd.day
      else origDayOfMonth
    let wi := wrapping_int2_add ymd.month f
    let year := ymd.year + wi.2
    if year < 1400 ∨ 9999 < year then Except.error Error.bad_year
    else
      let resultingEndOfMonthDay := end_of_month_day year wi.1
      if orig = -1 then
        match mkDate year wi.1 resultingEndOfMonthDay with
        | Except.error e => Except.error e
        | Except.ok r => Except.ok (orig, r)
      else
        let dayOfMonth := if resultingEndOfMonthDay < orig then resultingEndOfMonthDay else orig
        match mkDate year wi.1 dayOfMonth with
        | Except.error e => Except.error e
        | Except.ok r => Except.ok (orig, r)

/-- The sum `d + months(n)`: a fresh `month_functor` applied once. -/
def addMonths (d : date) (n : Int) : Except Error date :=
  match month_functor_step 0 n d with
  | Except.error e => Except.error e
  | Except.ok r => Except.ok r.2

/-- The sum `d + years(n)`: `year_functor` is a `month_functor` of `12 * n` months. -/
def addYears (d : date) (n : Int) : Except Error date :=
  addMonths d (n * 12)

/-- The function `date::end_of_month()`: the last day of the date's month. -/
def date.end_of_month (d : date) : Except Error date :=
  match d.year_month_day with
  | Except.error e => Except.error e
  | Except.ok ymd => mkDate ymd.year ymd.month (end_of_month_day ymd.year ymd.month)

/-! ## `DateOffset::add` (core.cpp, lines 12-60) -/

/-- The function `DateOffset::add(currentDate, dateOffset)`: advance by the offset, then snap
as the source does for each kind; `default:` is the Day kind. The products
`3 * multiplier` and `7 * multiplier` are exact here; the `int` products of the
source are exact whenever the result is a date of the supported range. -/
def DateOffset.add (currentDate : date) (dateOffset : DateOffset) : Except Error date :=
  match dateOffset.type with
  | DateOffset.Type.MonthEnd =>
    match addMonths currentDate dateOffset.multiplier with
    | Except.error e => Except.error e
    | Except.ok d => d.end_of_month
  | DateOffset.Type.QuarterStart =>
    match addMonths currentDate (3 * dateOffset.multiplier) with
    | Except.error e => Except.error e
    | Except.ok d =>
      match d.year_month_day with
      | Except.error e => Except.error e
      | Except.ok ymd => mkDate ymd.year ((ymd.month - 1) / 3 * 3 + 1) 1
  | DateOffset.Type.QuarterEnd =>
    match addMonths currentDate (3 * dateOffset.multiplier) with
    | Except.error e => Except.error e
    | Except.ok d =>
      match d.year_month_day with
      | Except.error e => Except.error e
      | Except.ok ymd =>
        match mkDate ymd.year ((ymd.month - 1) / 3 * 3 + 3) 1 with
        | Except.error e => Except.error e
        | Except.ok q => Except.ok (addDays q (-1))
  | DateOffset.Type.WeekStart =>
    Except.ok (addDays currentDate (dateOffset.multiplier * 7))
  | DateOffset.Type.WeekEnd =>
    Except.ok (addDays currentDate (dateOffset.multiplier * 7))
  | DateOffset.Type.MonthStart =>
    match addMonths currentDate dateOffset.multiplier with
    | Except.error e => Except.error e
    | Except.ok d =>
      match d.year_month_day with
      | Except.error e => Except.error e
      | Except.ok ymd => mkDate ymd.year ymd.month 1
  | DateOffset.Type.YearEnd =>
    match addYears currentDate dateOffset.multiplier with
    | Except.error e => Except.error e
    | Except.ok d =>
      match d.year_month_day with
      | Except.error e => Except.error e
      | Except.ok ymd => mkDate ymd.year 12 31
  | DateOffset.Type.YearStart =>
    match addYears currentDate dateOffset.multiplier with
    | Except.error e => Except.error e
    | Except.ok d =>
      match d.year_month_day with
      | Except.error e => Except.error e
      | Except.ok ymd => mkDate ymd.year 1 1
  | DateOffset.Type.Day =>
    Except.ok (addDays currentDate dateOffset.multiplier)

/-! ## Date iterators and the calendar `date_range` family (core.cpp, lines 174-265, 365-381) -/

/-- The four `boost::gregorian` iterators the range templates are instantiated with. -/
inductive IteratorKind where
  | day_iterator | week_iterator | month_iterator | year_iterator
  deriving DecidableEq, Repr

/-- A `date_itr<functor>`: the current date, the factor it was built with and,
for the month and year functors, the remembered day of month. -/
structure date_itr where
  kind : IteratorKind
  current : date
  f : Int
  origDayOfMonth : Int
  deriving DecidableEq, Repr

/-- The constructor `Iterator(start, freq)`. -/
def date_itr.init (kind : IteratorKind) (start : date) (freq : Int) : date_itr :=
  ⟨kind, start, freq, 0⟩

/-- The increment `++it`: `current = current + functor.get_offset(current)`; days step by `f`,
weeks by `7 * f` days, months by `f` months, years by `12 * f` months. -/
def date_itr.next (it : date_itr) : Except Error date_itr :=
  match it.kind with
  | IteratorKind.day_iterator =>
    Except.ok ⟨it.kind, addDays it.current it.f, it.f, it.origDayOfMonth⟩
  | IteratorKind.week_iterator =>
    Except.ok ⟨it.kind, addDays it.current (it.f * 7), it.f, it.origDayOfMonth⟩
  | IteratorKind.month_iterator =>
    match month_functor_step it.origDayOfMonth it.f it.current with
    | Except.error e => Except.error e
    | Except.ok r => Except.ok ⟨it.kind, r.2, it.f, r.1⟩
  | IteratorKind.year_iterator =>
    match month_functor_step it.origDayOfMonth (it.f * 12) it.current with
    | Except.error e => Except.error e
    | Except.ok r => Except.ok ⟨it.kind, r.2, it.f, r.1⟩

/-- Modelled from the spec: `fromDate` is declared outside `core.cpp`; the spec
has every position leave the core as a count of nanoseconds since the epoch
(1970-01-01, serial day 2440588). -/
def fromDate (d : date) : Int :=
  (day_number d - 2440588) * 86400000000000

/-- An `arrow::TimestampArray` as the core hands it over: the epoch-nanosecond
values in order and the timezone label. -/
structure TimestampArray where
  values : List Int
  timezone : CppString
  deriving DecidableEq, Repr

/-- Modelled from the spec: `toDateTime` is declared outside `core.cpp`; it is
the collaborator that builds a timestamp array from the ordered values and the
timezone label. -/
def toDateTime (timestamps : List Int) (tz : CppString) : TimestampArray :=
  ⟨timestamps, tz⟩

/-- Modelled from the spec: the default timezone argument of `toDateTime`, the
empty label (naive, no timezone). -/
def toDateTime_default_tz : CppString := []

/-- The loop `for (it = Iterator(start, freq); it <= end; ++it) push_back(fromDate(*it))`
of the bounded template, with an iteration budget. -/
def date_range_loop (end_ : date) : Nat → date_itr → List Int → Except Error (List Int)
  | 0, it, timestamps =>
    if day_number it.current ≤ day_number end_ then Except.error Error.out_of_fuel
    else Except.ok timestamps
  | fuel + 1, it, timestamps =>
    if day_number it.current ≤ day_number end_ then
      match it.next with
      | Except.error e => Except.error e
      | Except.ok it1 => date_range_loop end_ fuel it1 (timestamps ++ [fromDate it.current])
    else Except.ok timestamps

/-- The template `date_range<Iterator>(start, end, freq, tz)` (lines 174-201).
The reserved capacity `N` does not influence the result and is left out. The
budget of the loop is the number of days from `start` to `end` plus one: each
step advances by at least one day. -/
def date_range_date_date (Iterator : IteratorKind) (start end_ : date) (freq : Int)
    (tz : CppString) : Except Error TimestampArray :=
  if day_number end_ ≤ day_number start then
    Except.error (Error.runtime_error "start date has to be less than end date")
  else if freq < 1 then
    Except.error (Error.runtime_error "FREQ must be >= 1")
  else
    match date_range_loop end_ (day_number end_ - day_number start + 1).toNat
        (date_itr.init Iterator start freq) [] with
    | Except.error e => Except.error e
    | Except.ok timestamps => Except.ok (toDateTime timestamps tz)

/-- The `std::generate_n` of the counted template: `n` times, take
`fromDate(*it)` and then increment the iterator. -/
def generate_n : Nat → date_itr → Except Error (List Int)
  | 0, _ => Except.ok []
  | n + 1, it =>
    match it.next with
    | Except.error e => Except.error e
    | Except.ok it1 =>
      match generate_n n it1 with
      | Except.error e => Except.error e
      | Except.ok rest => Except.ok (fromDate it.current :: rest)

/-- The template `date_range<Iterator>(start, period, freq, tz)` (lines 203-233).
Its timezone parameter is unnamed and unused: the array is built by
`toDateTime(timestamps)` with the default label. -/
def date_range_date_int (Iterator : IteratorKind) (start : date) (period : Int) (freq : Int)
    (_tz : CppString) : Except Error TimestampArray :=
  if period < 0 then
    Except.error (Error.runtime_error "period has to be positive")
  else if freq < 1 then
    Except.error (Error.runtime_error "FREQ must be >= 1")
  else
    match generate_n period.toNat (date_itr.init Iterator start freq) with
    | Except.error e => Except.error e
    | Except.ok timestamps => Except.ok (toDateTime timestamps toDateTime_default_tz)

/-- The second argument of `switchFunction`, declared `auto const&`: an end date
or an `int` number of periods. -/
inductive EndOrPeriod where
  | endDate (end_ : date)
  | period (n : Int)
  deriving DecidableEq, Repr

/-- Overload resolution of `date_range<Iterator>(start, end_or_period, freq, tz)`. -/
def date_range_tmpl (Iterator : IteratorKind) (start : date) (end_or_period : EndOrPeriod)
    (freq : Int) (tz : CppString) : Except Error TimestampArray :=
  match end_or_period with
  | EndOrPeriod.endDate end_ => date_range_date_date Iterator start end_ freq tz
  | EndOrPeriod.period n => date_range_date_int Iterator start n freq tz

/-- The function `switchFunction(start, end_or_period, freq, tz)` for a `date` start
(lines 235-265). In the QuarterStart case the factor `freq.multiplier * 3` is a
product of two `int`s, formed before the template checks `freq < 1`: it is
taken in 32-bit arithmetic. -/
def switchFunction (start : date) (end_or_period : EndOrPeriod) (freq : DateOffset)
    (tz : CppString) : Except Error TimestampArray :=
  match freq.type with
  | DateOffset.Type.Day =>
    date_range_tmpl IteratorKind.day_iterator start end_or_period freq.multiplier tz
  | DateOffset.Type.MonthEnd =>
    Except.error (Error.runtime_error "MonthEnd not supported use arrow month().groupby()")
  | DateOffset.Type.MonthStart =>
    date_range_tmpl IteratorKind.month_iterator start end_or_period freq.multiplier tz
  | DateOffset.Type.QuarterStart =>
    match start.year_month_day with
    | Except.error e => Except.error e
    | Except.ok ymd =>
      if ymd.month / 3 ≠ 0 then
        Except.error (Error.runtime_error
          "A quarter freq requires month is on a quarter, +/- with DateOffset")
      else
        date_range_tmpl IteratorKind.month_iterator start end_or_period
          (int32_wrap (freq.multiplier * 3)) tz
  | DateOffset.Type.QuarterEnd =>
    Except.error (Error.runtime_error "QuarterEnd not supported use arrow quarter().groupby()")
  | DateOffset.Type.WeekEnd =>
    Except.error (Error.runtime_error "WeekEnd not supported use arrow weeks().groupby()")
  | DateOffset.Type.WeekStart =>
    date_range_tmpl IteratorKind.week_iterator start end_or_period freq.multiplier tz
  | DateOffset.Type.YearEnd =>
    Except.error (Error.runtime_error "YearEnd not supported use arrow year().groupby()")
  | DateOffset.Type.YearStart =>
    date_range_tmpl IteratorKind.year_iterator start end_or_period freq.multiplier tz

/-- The overload `date_range(start, end, freq, tz)` with a `DateOffset` (lines 365-372). -/
def date_range_date_date_offset (start end_ : date) (freq : DateOffset) (tz : CppString) :
    Except Error TimestampArray :=
  switchFunction start (EndOrPeriod.endDate end_) freq tz

/-- The overload `date_range(start, period, freq, tz)` with a `DateOffset` (lines 374-381). -/
def date_range_date_int_offset (start : date) (period : Int) (freq : DateOffset)
    (tz : CppString) : Except Error TimestampArray :=
  switchFunction start (EndOrPeriod.period period) freq tz

/-! ## Date-time ranges (core.cpp, lines 276-363) and `range` (lines 401-412) -/

/-- A `boost::posix_time::time_duration` (an ordinary, non-special value), as a
signed count of nanoseconds. -/
abbrev time_duration := Int

/-- A `boost::posix_time::ptime` (an ordinary, non-special value), as the signed
count of nanoseconds from the epoch 1970-01-01T00:00:00 to it. -/
abbrev ptime := Int

/-- The duration `boost::posix_time::hours(n)`. -/
def hours (n : Int) : time_duration := n * 3600000000000

/-- The duration `boost::posix_time::minutes(n)`. -/
def minutes (n : Int) : time_duration := n * 60000000000

/-- The duration `boost::posix_time::seconds(n)`. -/
def seconds (n : Int) : time_duration := n * 1000000000

/-- The duration `boost::posix_time::milliseconds(n)`. -/
def milliseconds (n : Int) : time_duration := n * 1000000

/-- The duration `boost::posix_time::microseconds(n)`. -/
def microseconds (n : Int) : time_duration := n * 1000

/-- Modelled from the spec: `pd::nanoseconds` is declared outside `core.cpp`; the
spec has the resolver map a nanosecond code to the multiplier times one
nanosecond. -/
def nanoseconds (n : Int) : time_duration := n

/-- The function `duration_from_string(freq_unit, freq_value)` (lines 276-306). -/
def duration_from_string (freq_unit : CppString) (freq_value : Int) : Except Error time_duration :=
  if freq_unit = "H".toList ∨ freq_unit = "hrs".toList then
    Except.ok (hours freq_value)
  else if freq_unit = "T".toList ∨ freq_unit = "min".toList then
    Except.ok (minutes freq_value)
  else if freq_unit = "S".toList then
    Except.ok (seconds freq_value)
  else if freq_unit = "L".toList ∨ freq_unit = "ms".toList then
    Except.ok (milliseconds freq_value)
  else if freq_unit = "U".toList ∨ freq_unit = "us".toList then
    Except.ok (microseconds freq_value)
  else if freq_unit = "N".toList ∨ freq_unit = "ns".toList then
    Except.ok (nanoseconds freq_value)
  else
    Except.error (Error.runtime_error
      ("date_range with start:ptime_type is only compatible with " ++
        "[T/min S L/ms U/us N/ns] freq_unit"))

/-- Modelled from the spec: `fromPTime` is declared outside `core.cpp`; the spec
has every position leave the core as a count of nanoseconds since the epoch. -/
def fromPTime (t : ptime) : Int := t

/-- The loop `for (it = time_iterator(start, freq); it <= end; ++it) push_back(fromPTime(*it))`
of the bounded date-time range, with an iteration budget; `++it` adds `freq`. -/
def time_range_loop (end_ : ptime) (freq : time_duration) :
    Nat → ptime → List Int → Except Error (List Int)
  | 0, it, timestamps =>
    if it ≤ end_ then Except.error Error.out_of_fuel else Except.ok timestamps
  | fuel + 1, it, timestamps =>
    if it ≤ end_ then time_range_loop end_ freq fuel (it + freq) (timestamps ++ [fromPTime it])
    else Except.ok timestamps

/-- The overload `date_range(start, end, freq, tz)` on `ptime` (lines 308-331). The
budget of the loop is the number of whole steps from `start` to `end`, plus one. -/
def date_range_ptime_ptime (start end_ : ptime) (freq : time_duration) (tz : CppString) :
    Except Error TimestampArray :=
  if end_ ≤ start then
    Except.error (Error.runtime_error "start date has to be less than end date")
  else if freq < 0 ∨ freq = 0 then
    Except.error (Error.runtime_error "FREQ must be positive")
  else
    match time_range_loop end_ freq ((end_ - start) / freq + 1).toNat start [] with
    | Except.error e => Except.error e
    | Except.ok timestamps => Except.ok (toDateTime timestamps tz)

/-- The `std::generate_n` of the counted date-time range: `n` times, take
`fromPTime(*it)` and then add `freq` to the iterator. -/
def generate_n_time (freq : time_duration) : Nat → ptime → List Int
  | 0, _ => []
  | n + 1, it => fromPTime it :: generate_n_time freq n (it + freq)

/-- The overload `date_range(start, period, freq, tz)` on `ptime` (lines 333-363). -/
def date_range_ptime_int (start : ptime) (period : Int) (freq : time_duration)
    (tz : CppString) : Except Error TimestampArray :=
  if period ≤ 0 then
    Except.error (Error.runtime_error "period has to be positive")
  else if freq < 0 ∨ freq = 0 then
    Except.error (Error.runtime_error "FREQ must be positive")
  else
    Except.ok (toDateTime (generate_n_time freq period.toNat start) tz)

/-- The value of a signed 64-bit integer after two's-complement wrap-around. -/
def int64_wrap (x : Int) : Int :=
  (x + 9223372036854775808) % 18446744073709551616 - 9223372036854775808

/-- The function `range(int64_t start, int64_t end)` (lines 401-412): `length` is
`end - start` in 64-bit arithmetic, and the loop appends its counter `i` for
`i = 0, ..., length - 1`. -/
def range (start end_ : Int) : List Int :=
  let length := int64_wrap (end_ - start)
  (List.range length.toNat).map (fun i => (i : Int))

/-! ## Invariant of the date iterators (used in the proofs below) -/

/-- The state of a date iterator during a range computation: the factor is at
least 1, the serial number of the current date is not negative and, for the
month and year iterators, the current date is a valid calendar date and the
remembered day of month is unset (0), "last day of month" (-1) or a day
number from 1 on. -/
def date_itr.Inv (it : date_itr) : Prop :=
  1 ≤ it.f ∧ 0 ≤ day_number it.current ∧
    ((it.kind = IteratorKind.month_iterator ∨ it.kind = IteratorKind.year_iterator) →
      it.current.valid ∧
        (it.origDayOfMonth = 0 ∨ it.origDayOfMonth = -1 ∨ 1 ≤ it.origDayOfMonth))

/-- The number of months one increment of the iterator advances: the factor for
the month iterator, twelve times the factor for the year iterator (0 for the
day and week iterators, which advance by days). -/
def date_itr.stepMonths (kind : IteratorKind) (f : Int) : Int :=
  match kind with
  | IteratorKind.month_iterator => f
  | IteratorKind.year_iterator => f * 12
  | _ => 0

/-- The number of months one step of a calendar offset advances in a range:
the multiplier for MonthStart, three times it for QuarterStart, twelve times it
for YearStart, and 0 for the kinds that step by days. -/
def DateOffset.stepMonths (freq : DateOffset) : Int :=
  match freq.type with
  | DateOffset.Type.MonthStart => freq.multiplier
  | DateOffset.Type.QuarterStart => freq.multiplier * 3
  | DateOffset.Type.YearStart => freq.multiplier * 12
  | _ => 0

/-! ## Lemmas on characters and `std::stoi` -/

theorem isDigit_iff (c : Char) : c.isDigit = true ↔ 48 ≤ c.toNat ∧ c.toNat ≤ 57 := by
  simp only [Char.isDigit, Bool.and_eq_true, decide_eq_true_eq, UInt32.le_def, BitVec.le_def]
  exact Iff.rfl

theorem isAlpha_iff (c : Char) :
    c.isAlpha = true ↔ (65 ≤ c.toNat ∧ c.toNat ≤ 90) ∨ (97 ≤ c.toNat ∧ c.toNat ≤ 122) := by
  simp only [Char.isAlpha, Char.isUpper, Char.isLower, Bool.or_eq_true, Bool.and_eq_true,
    decide_eq_true_eq, UInt32.le_def, BitVec.le_def]
  exact Iff.rfl

theorem isspace_iff (c : Char) : isspace c = true ↔ c.toNat = 32 ∨ (9 ≤ c.toNat ∧ c.toNat ≤ 13) := by
  simp [isspace]

theorem not_isAlpha_of_isDigit {c : Char} (h : c.isDigit = true) : (!c.isAlpha) = true := by
  have h1 := (isDigit_iff c).1 h
  cases hc : c.isAlpha with
  | false => rfl
  | true =>
    have h2 := (isAlpha_iff c).1 hc
    omega

theorem not_isDigit_of_isAlpha {c : Char} (h : c.isAlpha = true) : c.isDigit = false := by
  have h1 := (isAlpha_iff c).1 h
  cases hc : c.isDigit with
  | false => rfl
  | true =>
    have h2 := (isDigit_iff c).1 hc
    omega

theorem not_isspace_of_isDigit {c : Char} (h : c.isDigit = true) : isspace c = false := by
  have h1 := (isDigit_iff c).1 h
  cases hc : isspace c with
  | false => rfl
  | true =>
    have h2 := (isspace_iff c).1 hc
    omega

theorem decimalValue_append_singleton (ds : List Char) (c : Char) :
    decimalValue (ds ++ [c]) = 10 * decimalValue ds + digitVal c := by
  simp [decimalValue, List.foldl_append]

theorem decimalValue_eq_ofDigits (ds : List Char) :
    decimalValue ds = Nat.ofDigits 10 (ds.reverse.map (fun c => c.toNat - 48)) := by
  induction ds using List.reverseRecOn with
  | nil => rfl
  | append_singleton l c ih =>
    rw [decimalValue_append_singleton, ih]
    simp [Nat.ofDigits_cons, digitVal]
    omega

theorem stoi_sign_of_isDigit (c : Char) (t : List Char) (hc : c.isDigit = true) :
    stoi_sign (c :: t) = (false, c :: t) := by
  have hminus : c ≠ '-' := by
    intro h; rw [h] at hc; revert hc; decide
  have hplus : c ≠ '+' := by
    intro h; rw [h] at hc; revert hc; decide
  unfold stoi_sign
  split
  · rename_i h; simp at h; exact absurd h.1 hminus
  · rename_i h; simp at h; exact absurd h.1 hplus
  · rfl

theorem stoi_digit_run (ds : List Char) (hd : ∀ c ∈ ds, c.isDigit = true) (hne : ds ≠ [])
    (hfit : (decimalValue ds : Int) ≤ INT_MAX) : stoi ds = Except.ok (decimalValue ds : Int) := by
  obtain ⟨c, t, rfl⟩ := List.exists_cons_of_ne_nil hne
  have hc : c.isDigit = true := hd c (List.mem_cons_self _ _)
  have hsp : isspace c = false := not_isspace_of_isDigit hc
  have htake : List.takeWhile Char.isDigit (c :: t) = c :: t :=
    List.takeWhile_eq_self_iff.2 hd
  have hdrop : List.dropWhile isspace (c :: t) = c :: t := by
    simp [List.dropWhile_cons, hsp]
  have hmin : ¬ ((decimalValue (c :: t) : Int) < INT_MIN) := by
    unfold INT_MIN; omega
  unfold stoi
  simp only [hdrop, stoi_sign_of_isDigit c t hc, htake]
  simp [hmin, not_lt.2 hfit]

theorem splitTimeSpan_wf (ds ls : List Char)
    (hd : ∀ c ∈ ds, c.isDigit = true) (hl : ∀ c ∈ ls, c.isAlpha = true) (hne : ls ≠ [])
    (hfit : (decimalValue ds : Int) ≤ INT_MAX) :
    splitTimeSpan (ds ++ ls) = Except.ok (ls, if ds = [] then 1 else (decimalValue ds : Int)) := by
  obtain ⟨a, t, rfl⟩ := List.exists_cons_of_ne_nil hne
  have ha : a.isAlpha = true := hl a (List.mem_cons_self _ _)
  have hds : ∀ c ∈ ds, (fun x : Char => !x.isAlpha) c = true :=
    fun c hc => not_isAlpha_of_isDigit (hd c hc)
  have htake : List.takeWhile (fun x : Char => !x.isAlpha) (ds ++ a :: t) = ds := by
    rw [List.takeWhile_append_of_pos hds]
    simp [List.takeWhile_cons, ha]
  have hdrop : List.dropWhile (fun x : Char => !x.isAlpha) (ds ++ a :: t) = a :: t := by
    rw [List.dropWhile_append_of_pos hds]
    simp [List.dropWhile_cons, ha]
  unfold splitTimeSpan
  simp only [htake, hdrop]
  by_cases hnil : ds = []
  · subst hnil
    have hany : List.any (a :: t) Char.isDigit = false := by
      rw [List.any_eq_false]
      intro c hc
      simp [not_isDigit_of_isAlpha (hl c hc)]
    simp [hany]
  · simp [hnil, stoi_digit_run ds hd hnil hfit]

/-! ## Lemmas on dates and month arithmetic -/

theorem end_of_month_day_bounds (y m : Int) :
    28 ≤ end_of_month_day y m ∧ end_of_month_day y m ≤ 31 := by
  unfold end_of_month_day
  split
  · split <;> omega
  · split <;> omega

theorem mkDate_ok {y m d : Int} (h : date.valid ⟨y, m, d⟩) : mkDate y m d = Except.ok ⟨y, m, d⟩ := by
  obtain ⟨⟨h1, h2⟩, ⟨h3, h4⟩, h5, h6⟩ := h
  simp only at h1 h2 h3 h4 h5 h6
  have hb := (end_of_month_day_bounds y m).2
  unfold mkDate
  rw [if_neg (by omega), if_neg (by omega), if_neg (by omega), if_neg (by omega)]

theorem year_month_day_ok {d : date} (h : d.valid) : d.year_month_day = Except.ok d := by
  obtain ⟨⟨h1, h2⟩, _⟩ := h
  unfold date.year_month_day
  rw [if_neg (by omega)]

theorem wrapping_int2_add_nonneg (v f : Int) (hv1 : 1 ≤ v) (hv2 : v ≤ 12) (hf : 0 ≤ f) :
    wrapping_int2_add v f = ((v - 1 + f) % 12 + 1, (v - 1 + f) / 12) := by
  unfold wrapping_int2_add
  have h1 : Int.tmod f 12 = f % 12 := Int.tmod_eq_emod hf (by omega)
  have h2 : Int.tdiv f 12 = f / 12 := Int.tdiv_eq_ediv hf (by omega)
  simp only [h1, h2]
  split
  · ext <;> simp <;> omega
  · split
    · omega
    · ext <;> simp <;> omega


theorem addMonths_ok (d : date) (f : Int) (hv : d.valid) (hf : 0 ≤ f)
    (hr : d.year + (d.month - 1 + f) / 12 ≤ 9999) :
    ∃ day, addMonths d f =
      Except.ok ⟨d.year + (d.month - 1 + f) / 12, (d.month - 1 + f) % 12 + 1, day⟩ ∧
      date.valid ⟨d.year + (d.month - 1 + f) / 12, (d.month - 1 + f) % 12 + 1, day⟩ := by
  have hv0 := hv
  obtain ⟨⟨h1, h2⟩, ⟨h3, h4⟩, h5, h6⟩ := hv
  have hq : 0 ≤ (d.month - 1 + f) / 12 := Int.ediv_nonneg (by omega) (by omega)
  have hb := end_of_month_day_bounds (d.year + (d.month - 1 + f) / 12) ((d.month - 1 + f) % 12 + 1)
  have hb0 := end_of_month_day_bounds d.year d.month
  unfold addMonths month_functor_step
  rw [year_month_day_ok hv0]
  simp only [wrapping_int2_add_nonneg d.month f h3 h4 hf]
  rw [if_neg (by omega)]
  simp only [if_true]
  by_cases he : end_of_month_day d.year d.month = d.day
  · have hval : date.valid ⟨d.year + (d.month - 1 + f) / 12, (d.month - 1 + f) % 12 + 1,
        end_of_month_day (d.year + (d.month - 1 + f) / 12) ((d.month - 1 + f) % 12 + 1)⟩ := by
      refine ⟨⟨?_, ?_⟩, ⟨?_, ?_⟩, ?_, ?_⟩ <;> simp only <;> omega
    refine ⟨_, ?_, hval⟩
    simp only [he, if_true, mkDate_ok hval]
  · by_cases hlt : end_of_month_day (d.year + (d.month - 1 + f) / 12) ((d.month - 1 + f) % 12 + 1) < d.day
    · have hval : date.valid ⟨d.year + (d.month - 1 + f) / 12, (d.month - 1 + f) % 12 + 1,
          end_of_month_day (d.year + (d.month - 1 + f) / 12) ((d.month - 1 + f) % 12 + 1)⟩ := by
        refine ⟨⟨?_, ?_⟩, ⟨?_, ?_⟩, ?_, ?_⟩ <;> simp only <;> omega
      refine ⟨_, ?_, hval⟩
      have hd1 : ¬ d.day = -1 := by omega
      simp only [he, if_false, hd1, hlt, if_true, mkDate_ok hval]
    · have hval : date.valid ⟨d.year + (d.month - 1 + f) / 12, (d.month - 1 + f) % 12 + 1, d.day⟩ := by
        refine ⟨⟨?_, ?_⟩, ⟨?_, ?_⟩, ?_, ?_⟩ <;> simp only <;> omega
      refine ⟨_, ?_, hval⟩
      have hd1 : ¬ d.day = -1 := by omega
      simp only [he, if_false, hd1, hlt, mkDate_ok hval]

/-! ## The frequency-code parser -/

/-- C1: for a (possibly empty) run of ASCII decimal digits `ds` whose value fits
an `int`, followed by a non-empty run of ASCII letters `ls`, `splitTimeSpan`
returns the letter run as the unit and the decimal value of the digit run as the
multiplier, with multiplier 1 when the digit run is empty. -/
theorem splitTimeSpan_digits_then_letters (ds ls : List Char)
    (hd : ∀ c ∈ ds, c.isDigit = true) (hl : ∀ c ∈ ls, c.isAlpha = true) (hne : ls ≠ [])
    (hfit : ((Nat.ofDigits 10 (ds.reverse.map (fun c => c.toNat - 48)) : Nat) : Int) ≤ INT_MAX) :
    splitTimeSpan (ds ++ ls) =
      Except.ok (ls, if ds = [] then 1
        else ((Nat.ofDigits 10 (ds.reverse.map (fun c => c.toNat - 48)) : Nat) : Int)) := by
  rw [← decimalValue_eq_ofDigits] at hfit ⊢
  exact splitTimeSpan_wf ds ls hd hl hne hfit

/-- C1, at the two codes the claim names: "3M" gives unit "M" and multiplier 3,
"QS" gives unit "QS" and multiplier 1. -/
theorem splitTimeSpan_digits_then_letters_witness :
    splitTimeSpan "3M".toList = Except.ok ("M".toList, 3) ∧
    splitTimeSpan "QS".toList = Except.ok ("QS".toList, 1) :=
  ⟨splitTimeSpan_digits_then_letters ['3'] ['M'] (by decide) (by decide) (by decide) (by decide),
   splitTimeSpan_digits_then_letters [] ['Q', 'S'] (by decide) (by decide) (by decide) (by decide)⟩

/-- C2: on the digit-only codes "3", "12" and "007" `splitTimeSpan` does not
fail: it returns the empty unit with the digits' value, and
`DateOffset::FromString` then reports no offset instead of raising. -/
theorem splitTimeSpan_digits_only_returns :
    splitTimeSpan "3".toList = Except.ok ([], 3) ∧
    splitTimeSpan "12".toList = Except.ok ([], 12) ∧
    splitTimeSpan "007".toList = Except.ok ([], 7) ∧
    DateOffset.FromString "3".toList = Except.ok none :=
  ⟨rfl, rfl, rfl, rfl⟩

/-- C3: a code whose first character is an ASCII letter and that contains a
decimal digit anywhere makes `splitTimeSpan` raise
`runtime_error("Invalid time offset " + code)`, and `DateOffset::FromString`
raises the same error. -/
theorem splitTimeSpan_letter_first_digit_fails (c : Char) (rest : List Char)
    (hc : c.isAlpha = true) (hdig : ∃ x ∈ c :: rest, x.isDigit = true) :
    splitTimeSpan (c :: rest) =
        Except.error (Error.runtime_error ("Invalid time offset " ++ String.mk (c :: rest))) ∧
    DateOffset.FromString (c :: rest) =
        Except.error (Error.runtime_error ("Invalid time offset " ++ String.mk (c :: rest))) := by
  have hsplit : splitTimeSpan (c :: rest) =
      Except.error (Error.runtime_error ("Invalid time offset " ++ String.mk (c :: rest))) := by
    have hany : List.any (c :: rest) Char.isDigit = true := by
      rw [List.any_eq_true]
      exact hdig
    unfold splitTimeSpan
    simp only [List.takeWhile_cons, hc, Bool.not_true]
    simp [hany]
  refine ⟨hsplit, ?_⟩
  unfold DateOffset.FromString
  rw [hsplit]

/-- C3, at the code "M3". -/
theorem splitTimeSpan_letter_first_digit_fails_witness :
    splitTimeSpan "M3".toList = Except.error (Error.runtime_error "Invalid time offset M3") ∧
    DateOffset.FromString "M3".toList =
      Except.error (Error.runtime_error "Invalid time offset M3") :=
  splitTimeSpan_letter_first_digit_fails 'M' ['3'] (by decide) (by decide)

/-- C4: for a well-formed frequency code (digit run `ds` fitting an `int`, then a
non-empty letter run `u`) with multiplier `n` (the digits' value, 1 when there
are none), `DateOffset::FromString` returns an offset exactly for the units D,
WS, W, MS, M, Y, YS, Q, QS, with multiplier `n` and kind Day, WeekStart,
WeekEnd, MonthStart, MonthEnd, YearEnd, YearStart, QuarterEnd, QuarterStart
respectively, and returns no offset for every other unit. -/
theorem FromString_wellformed_code (ds u : List Char) (n : Int)
    (hd : ∀ c ∈ ds, c.isDigit = true) (hl : ∀ c ∈ u, c.isAlpha = true) (hne : u ≠ [])
    (hfit : ((Nat.ofDigits 10 (ds.reverse.map (fun c => c.toNat - 48)) : Nat) : Int) ≤ INT_MAX)
    (hn : n = if ds = [] then 1
      else ((Nat.ofDigits 10 (ds.reverse.map (fun c => c.toNat - 48)) : Nat) : Int)) :
    (u = "D".toList →
      DateOffset.FromString (ds ++ u) = Except.ok (some ⟨DateOffset.Type.Day, n⟩)) ∧
    (u = "WS".toList →
      DateOffset.FromString (ds ++ u) = Except.ok (some ⟨DateOffset.Type.WeekStart, n⟩)) ∧
    (u = "W".toList →
      DateOffset.FromString (ds ++ u) = Except.ok (some ⟨DateOffset.Type.WeekEnd, n⟩)) ∧
    (u = "MS".toList →
      DateOffset.FromString (ds ++ u) = Except.ok (some ⟨DateOffset.Type.MonthStart, n⟩)) ∧
    (u = "M".toList →
      DateOffset.FromString (ds ++ u) = Except.ok (some ⟨DateOffset.Type.MonthEnd, n⟩)) ∧
    (u = "Y".toList →
      DateOffset.FromString (ds ++ u) = Except.ok (some ⟨DateOffset.Type.YearEnd, n⟩)) ∧
    (u = "YS".toList →
      DateOffset.FromString (ds ++ u) = Except.ok (some ⟨DateOffset.Type.YearStart, n⟩)) ∧
    (u = "Q".toList →
      DateOffset.FromString (ds ++ u) = Except.ok (some ⟨DateOffset.Type.QuarterEnd, n⟩)) ∧
    (u = "QS".toList →
      DateOffset.FromString (ds ++ u) = Except.ok (some ⟨DateOffset.Type.QuarterStart, n⟩)) ∧
    (u ∉ ["D".toList, "WS".toList, "W".toList, "MS".toList, "M".toList, "Y".toList,
        "YS".toList, "Q".toList, "QS".toList] →
      DateOffset.FromString (ds ++ u) = Except.ok none) := by
  rw [← decimalValue_eq_ofDigits] at hfit hn
  have hs := splitTimeSpan_wf ds u hd hl hne hfit
  rw [← hn] at hs
  unfold DateOffset.FromString
  rw [hs]
  refine ⟨?_, ?_, ?_, ?_, ?_, ?_, ?_, ?_, ?_, ?_⟩
  · intro h; subst h; rfl
  · intro h; subst h; rfl
  · intro h; subst h; rfl
  · intro h; subst h; rfl
  · intro h; subst h; rfl
  · intro h; subst h; rfl
  · intro h; subst h; rfl
  · intro h; subst h; rfl
  · intro h; subst h; rfl
  · intro h
    simp only [List.mem_cons, List.mem_singleton, not_or, List.not_mem_nil, or_false] at h
    obtain ⟨h1, h2, h3, h4, h5, h6, h7, h8, h9⟩ := h
    simp only [h1, h2, h3, h4, h5, h6, h7, h8, h9, if_false]

/-- C4, at "3M" (MonthEnd with multiplier 3), at "QS" and at the unknown units "m" and "H". -/
theorem FromString_wellformed_code_witness :
    DateOffset.FromString "3M".toList = Except.ok (some ⟨DateOffset.Type.MonthEnd, 3⟩) ∧
    DateOffset.FromString "QS".toList = Except.ok (some ⟨DateOffset.Type.QuarterStart, 1⟩) ∧
    DateOffset.FromString "3m".toList = Except.ok none ∧
    DateOffset.FromString "15H".toList = Except.ok none :=
  ⟨(FromString_wellformed_code ['3'] ['M'] 3 (by decide) (by decide) (by decide) (by decide)
      (by decide)).2.2.2.2.1 rfl,
   (FromString_wellformed_code [] ['Q', 'S'] 1 (by decide) (by decide) (by decide) (by decide)
      (by decide)).2.2.2.2.2.2.2.2.1 rfl,
   (FromString_wellformed_code ['3'] ['m'] 3 (by decide) (by decide) (by decide) (by decide)
      (by decide)).2.2.2.2.2.2.2.2.2 (by decide),
   (FromString_wellformed_code ['1', '5'] ['H'] 15 (by decide) (by decide) (by decide) (by decide)
      (by decide)).2.2.2.2.2.2.2.2.2 (by decide)⟩

/-! ## The stepping operation `DateOffset::add` -/

/-- C5 as stated fails at the end of the supported date range: 9999-12-31 is a
valid date and 1 a valid multiplier, yet the MonthEnd step raises `bad_year`
instead of returning the last day of the following month. -/
theorem add_MonthEnd_fails_past_9999 :
    date.valid ⟨9999, 12, 31⟩ ∧
    DateOffset.add ⟨9999, 12, 31⟩ ⟨DateOffset.Type.MonthEnd, 1⟩ = Except.error Error.bad_year ∧
    ∀ r, DateOffset.add ⟨9999, 12, 31⟩ ⟨DateOffset.Type.MonthEnd, 1⟩ ≠ Except.ok r := by
  refine ⟨by decide, rfl, ?_⟩
  intro r h
  have e : DateOffset.add ⟨9999, 12, 31⟩ ⟨DateOffset.Type.MonthEnd, 1⟩ =
      Except.error Error.bad_year := rfl
  rw [e] at h
  cases h

/-- C5 (amended): for every valid date `d` and multiplier `m ≥ 1` such that the
month `m` months after `d`'s month is not later than December 9999,
`DateOffset::add` with a MonthEnd offset returns the last calendar day of that
month, whatever `d`'s day of month is: day 29 or 28 in February according to
whether the year is a leap year, 30 in April, June, September and November, 31
otherwise. -/
theorem add_MonthEnd_in_range (d : date) (m : Int) (hv : d.valid) (hm : 1 ≤ m)
    (hr : d.year + (d.month - 1 + m) / 12 ≤ 9999) :
    DateOffset.add d ⟨DateOffset.Type.MonthEnd, m⟩ =
      Except.ok ⟨d.year + (d.month - 1 + m) / 12, (d.month - 1 + m) % 12 + 1,
        if (d.month - 1 + m) % 12 + 1 = 2 then
          if ((d.year + (d.month - 1 + m) / 12) % 4 = 0 ∧
              (d.year + (d.month - 1 + m) / 12) % 100 ≠ 0) ∨
             (d.year + (d.month - 1 + m) / 12) % 400 = 0 then 29 else 28
        else if (d.month - 1 + m) % 12 + 1 = 4 ∨ (d.month - 1 + m) % 12 + 1 = 6 ∨
            (d.month - 1 + m) % 12 + 1 = 9 ∨ (d.month - 1 + m) % 12 + 1 = 11 then 30
        else 31⟩ := by
  obtain ⟨day, hadd, hval⟩ := addMonths_ok d m hv (by omega) hr
  have hb := end_of_month_day_bounds (d.year + (d.month - 1 + m) / 12) ((d.month - 1 + m) % 12 + 1)
  have hval2 : date.valid ⟨d.year + (d.month - 1 + m) / 12, (d.month - 1 + m) % 12 + 1,
      end_of_month_day (d.year + (d.month - 1 + m) / 12) ((d.month - 1 + m) % 12 + 1)⟩ := by
    obtain ⟨⟨h1, h2⟩, ⟨h3, h4⟩, h5, h6⟩ := hval
    simp only at h1 h2 h3 h4
    refine ⟨⟨?_, ?_⟩, ⟨?_, ?_⟩, ?_, ?_⟩ <;> simp only <;> omega
  unfold DateOffset.add
  simp only [hadd]
  unfold date.end_of_month
  rw [year_month_day_ok hval]
  simp only [mkDate_ok hval2]
  congr 2
  simp only [end_of_month_day, is_leap_year, Bool.and_eq_true, Bool.or_eq_true, beq_iff_eq,
    bne_iff_ne, ne_eq]
  split_ifs <;> first | rfl | omega

/-- C5 (amended), at the date the claim names: MonthEnd×1 on 2024-01-31 yields 2024-02-29. -/
theorem add_MonthEnd_in_range_witness :
    DateOffset.add ⟨2024, 1, 31⟩ ⟨DateOffset.Type.MonthEnd, 1⟩ = Except.ok ⟨2024, 2, 29⟩ :=
  add_MonthEnd_in_range ⟨2024, 1, 31⟩ 1 (by decide) (by decide) (by decide)

/-- C6: the QuarterEnd step does not return the last day of a quarter. From
2024-01-15 the date three months on is 2024-04-15, in the quarter ending
2024-06-30, and the code returns 2024-05-31; from 2023-09-10 it returns
2023-11-30 where the quarter ends on 2023-12-31. The snap takes the day before
the first day of the quarter's third month, not of the following quarter. -/
theorem add_QuarterEnd_returns_second_month_end :
    DateOffset.add ⟨2024, 1, 15⟩ ⟨DateOffset.Type.QuarterEnd, 1⟩ = Except.ok ⟨2024, 5, 31⟩ ∧
    DateOffset.add ⟨2023, 9, 10⟩ ⟨DateOffset.Type.QuarterEnd, 1⟩ = Except.ok ⟨2023, 11, 30⟩ ∧
    DateOffset.add ⟨2023, 10, 1⟩ ⟨DateOffset.Type.QuarterEnd, 2⟩ = Except.ok ⟨2024, 5, 31⟩ :=
  ⟨rfl, rfl, rfl⟩

/-- C7 as stated fails: `DateOffset::add` on 2023-02-01 with QuarterEnd×1 does
not yield 2023-03-31. -/
theorem add_QuarterEnd_20230201_ne_20230331 :
    DateOffset.add ⟨2023, 2, 1⟩ ⟨DateOffset.Type.QuarterEnd, 1⟩ ≠ Except.ok ⟨2023, 3, 31⟩ := by
  intro h
  have e : DateOffset.add ⟨2023, 2, 1⟩ ⟨DateOffset.Type.QuarterEnd, 1⟩ =
      Except.ok ⟨2023, 5, 31⟩ := rfl
  rw [e] at h
  injection h with h
  injection h with _ h2 _
  exact absurd h2 (by decide)

/-- C7 (amended): `DateOffset::add` on 2023-02-01 with QuarterEnd×1 first
advances three months, to 2023-05-01, and returns a date of the quarter that
contains that date: a day of April, May or June 2023. -/
theorem add_QuarterEnd_20230201_in_second_quarter :
    ∃ r, DateOffset.add ⟨2023, 2, 1⟩ ⟨DateOffset.Type.QuarterEnd, 1⟩ = Except.ok r ∧
      r.valid ∧ r.year = 2023 ∧ 4 ≤ r.month ∧ r.month ≤ 6 :=
  ⟨⟨2023, 5, 31⟩, rfl, by decide, rfl, by decide, by decide⟩

/-- C8 as stated fails at the end of the supported date range: 9999-11-15 is a
valid date and 1 a valid multiplier, yet the QuarterStart step raises `bad_year`
instead of returning a date. -/
theorem add_QuarterStart_fails_past_9999 :
    date.valid ⟨9999, 11, 15⟩ ∧
    DateOffset.add ⟨9999, 11, 15⟩ ⟨DateOffset.Type.QuarterStart, 1⟩ =
      Except.error Error.bad_year ∧
    ∀ r, DateOffset.add ⟨9999, 11, 15⟩ ⟨DateOffset.Type.QuarterStart, 1⟩ ≠ Except.ok r := by
  refine ⟨by decide, rfl, ?_⟩
  intro r h
  have e : DateOffset.add ⟨9999, 11, 15⟩ ⟨DateOffset.Type.QuarterStart, 1⟩ =
      Except.error Error.bad_year := rfl
  rw [e] at h
  cases h

/-- C8 (amended): for every valid date `d` and multiplier `m ≥ 1` such that the
month `3·m` months after `d`'s month is not later than December 9999,
`DateOffset::add` with a QuarterStart offset returns day 1 of month
`((k-1)/3)*3 + 1` of year `y`, where `y` and `k` are the year and month of the
date `3·m` months after `d`; the month of the result is 1, 4, 7 or 10 and its
quarter (counted as `4·year + (month-1)/3`) is exactly `m` quarters after `d`'s. -/
theorem add_QuarterStart_in_range (d : date) (m : Int) (hv : d.valid) (hm : 1 ≤ m)
    (hr : d.year + (d.month - 1 + 3 * m) / 12 ≤ 9999) :
    ∃ r, DateOffset.add d ⟨DateOffset.Type.QuarterStart, m⟩ = Except.ok r ∧
      r = ⟨d.year + (d.month - 1 + 3 * m) / 12,
            (((d.month - 1 + 3 * m) % 12 + 1) - 1) / 3 * 3 + 1, 1⟩ ∧
      (r.month = 1 ∨ r.month = 4 ∨ r.month = 7 ∨ r.month = 10) ∧
      4 * r.year + (r.month - 1) / 3 = 4 * d.year + (d.month - 1) / 3 + m := by
  obtain ⟨day, hadd, hval⟩ := addMonths_ok d (3 * m) hv (by omega) hr
  have hval2 : date.valid ⟨d.year + (d.month - 1 + 3 * m) / 12,
      (((d.month - 1 + 3 * m) % 12 + 1) - 1) / 3 * 3 + 1, 1⟩ := by
    have hb := end_of_month_day_bounds (d.year + (d.month - 1 + 3 * m) / 12)
      ((((d.month - 1 + 3 * m) % 12 + 1) - 1) / 3 * 3 + 1)
    obtain ⟨⟨h1, h2⟩, ⟨h3, h4⟩, h5, h6⟩ := hval
    simp only at h1 h2 h3 h4
    refine ⟨⟨?_, ?_⟩, ⟨?_, ?_⟩, ?_, ?_⟩ <;> simp only <;> omega
  refine ⟨_, ?_, rfl, ?_, ?_⟩
  · unfold DateOffset.add
    simp only [hadd]
    rw [year_month_day_ok hval]
    simp only [mkDate_ok hval2]
  · simp only
    omega
  · simp only
    obtain ⟨_, ⟨h3, h4⟩, _⟩ := hv
    omega

/-- C8 (amended), from 2023-02-14 with multiplier 2: the date six months on is in
August 2023 and the result is 2023-07-01. -/
theorem add_QuarterStart_in_range_witness :
    ∃ r, DateOffset.add ⟨2023, 2, 14⟩ ⟨DateOffset.Type.QuarterStart, 2⟩ = Except.ok r ∧
      r = ⟨2023, 7, 1⟩ ∧
      (r.month = 1 ∨ r.month = 4 ∨ r.month = 7 ∨ r.month = 10) ∧
      4 * r.year + (r.month - 1) / 3 = 4 * 2023 + (2 - 1) / 3 + 2 :=
  add_QuarterStart_in_range ⟨2023, 2, 14⟩ 2 (by decide) (by decide) (by decide)

/-! ## Dispatch and rejection in `switchFunction` -/

/-- C9: for every start date, end date or step count, multiplier and timezone
label, a calendar-date range with offset kind MonthEnd, QuarterEnd, WeekEnd or
YearEnd raises a `runtime_error` and produces no sequence, in the bounded and in
the counted call shape. -/
theorem date_range_end_kinds_rejected (start end_ : date) (period m : Int) (tz : CppString) :
    date_range_date_date_offset start end_ ⟨DateOffset.Type.MonthEnd, m⟩ tz =
      Except.error (Error.runtime_error "MonthEnd not supported use arrow month().groupby()") ∧
    date_range_date_int_offset start period ⟨DateOffset.Type.MonthEnd, m⟩ tz =
      Except.error (Error.runtime_error "MonthEnd not supported use arrow month().groupby()") ∧
    date_range_date_date_offset start end_ ⟨DateOffset.Type.QuarterEnd, m⟩ tz =
      Except.error
        (Error.runtime_error "QuarterEnd not supported use arrow quarter().groupby()") ∧
    date_range_date_int_offset start period ⟨DateOffset.Type.QuarterEnd, m⟩ tz =
      Except.error
        (Error.runtime_error "QuarterEnd not supported use arrow quarter().groupby()") ∧
    date_range_date_date_offset start end_ ⟨DateOffset.Type.WeekEnd, m⟩ tz =
      Except.error (Error.runtime_error "WeekEnd not supported use arrow weeks().groupby()") ∧
    date_range_date_int_offset start period ⟨DateOffset.Type.WeekEnd, m⟩ tz =
      Except.error (Error.runtime_error "WeekEnd not supported use arrow weeks().groupby()") ∧
    date_range_date_date_offset start end_ ⟨DateOffset.Type.YearEnd, m⟩ tz =
      Except.error (Error.runtime_error "YearEnd not supported use arrow year().groupby()") ∧
    date_range_date_int_offset start period ⟨DateOffset.Type.YearEnd, m⟩ tz =
      Except.error (Error.runtime_error "YearEnd not supported use arrow year().groupby()") :=
  ⟨rfl, rfl, rfl, rfl, rfl, rfl, rfl, rfl⟩

/-- C10: the quarter guard of `switchFunction` tests `month / 3 != 0`. With
otherwise valid inputs (multiplier 1, start before end, or a count of 2) the
quarter-aligned starts 2021-04-01, 2021-07-01 and 2021-10-01 are rejected, and
the start 2021-02-01, which does not begin a quarter, is accepted and stepped by
three months. -/
theorem switchFunction_QuarterStart_guard :
    date_range_date_date_offset ⟨2021, 4, 1⟩ ⟨2021, 12, 31⟩ ⟨DateOffset.Type.QuarterStart, 1⟩ [] =
      Except.error (Error.runtime_error
        "A quarter freq requires month is on a quarter, +/- with DateOffset") ∧
    date_range_date_date_offset ⟨2021, 7, 1⟩ ⟨2021, 12, 31⟩ ⟨DateOffset.Type.QuarterStart, 1⟩ [] =
      Except.error (Error.runtime_error
        "A quarter freq requires month is on a quarter, +/- with DateOffset") ∧
    date_range_date_int_offset ⟨2021, 10, 1⟩ 2 ⟨DateOffset.Type.QuarterStart, 1⟩ [] =
      Except.error (Error.runtime_error
        "A quarter freq requires month is on a quarter, +/- with DateOffset") ∧
    date_range_date_date_offset ⟨2021, 2, 1⟩ ⟨2021, 12, 31⟩ ⟨DateOffset.Type.QuarterStart, 1⟩ [] =
      Except.ok ⟨[fromDate ⟨2021, 2, 1⟩, fromDate ⟨2021, 5, 1⟩, fromDate ⟨2021, 8, 1⟩,
        fromDate ⟨2021, 11, 1⟩], []⟩ ∧
    date_range_date_int_offset ⟨2021, 2, 1⟩ 2 ⟨DateOffset.Type.QuarterStart, 1⟩ [] =
      Except.ok ⟨[fromDate ⟨2021, 2, 1⟩, fromDate ⟨2021, 5, 1⟩], []⟩ :=
  ⟨rfl, rfl, rfl, rfl, rfl⟩

/-! ## Serial day numbers: round trips and monotonicity -/

theorem day_number_from_day_number (n : Int) (hn : 0 ≤ n) :
    day_number (from_day_number n) = n := by
  unfold from_day_number day_number
  simp only
  generalize ha : n + 32044 = a
  have ha0 : 32044 ≤ a := by omega
  generalize hb : (4 * a + 3) / 146097 = b
  generalize hq : (146097 * b) / 4 = q
  generalize hc : a - q = c
  have hc0 : 0 ≤ c ∧ c ≤ 36524 := by omega
  generalize hd : (4 * c + 3) / 1461 = d
  have hd0 : 0 ≤ d ∧ d ≤ 99 := by omega
  generalize hr : (1461 * d) / 4 = r
  generalize he : c - r = e
  have he0 : 0 ≤ e ∧ e ≤ 365 := by omega
  generalize hm : (5 * e + 2) / 153 = m
  have hm0 : 0 ≤ m ∧ m ≤ 11 := by omega
  generalize hk : m / 10 = k
  have hk0 : (k = 0 ∧ m ≤ 9) ∨ (k = 1 ∧ 10 ≤ m) := by omega
  have h14 : (14 - (m + 3 - 12 * k)) / 12 = k := by omega
  rw [h14]
  have hy : 100 * b + d - 4800 + k + 4800 - k = 100 * b + d := by ring
  have hmm : m + 3 - 12 * k + 12 * k - 3 = m := by ring
  rw [hy, hmm]
  have hb0 : 0 ≤ b := by omega
  have h100 : (100 * b + d) / 100 = b := by omega
  have h4 : (100 * b + d) / 4 = 25 * b + d / 4 := by omega
  have h400 : (100 * b + d) / 400 = b / 4 := by omega
  have hq2 : q = 36524 * b + b / 4 := by omega
  have hr2 : r = 365 * d + d / 4 := by omega
  rw [h100, h4, h400]
  omega

/-- The date computed from a serial number that is given by its century `C`, year
of century `R` and day `dd` of the year that starts in March. -/
theorem from_day_number_of_parts (C R dd : Int) (hR : 0 ≤ R ∧ R ≤ 99)
    (hdd : 0 ≤ dd ∧ dd ≤ 365) (hleap : dd = 365 → R % 4 = 3 ∧ (R = 99 → C % 4 = 3)) :
    from_day_number (dd + 36524 * C + C / 4 + 365 * R + R / 4 - 32044) =
      ⟨100 * C + R - 4800 + ((5 * dd + 2) / 153) / 10,
        (5 * dd + 2) / 153 + 3 - 12 * (((5 * dd + 2) / 153) / 10),
        dd - ((153 * ((5 * dd + 2) / 153) + 2) / 5) + 1⟩ := by
  unfold from_day_number
  simp only
  have ha : dd + 36524 * C + C / 4 + 365 * R + R / 4 - 32044 + 32044 =
      dd + 36524 * C + C / 4 + 365 * R + R / 4 := by ring
  have hb : (4 * (dd + 36524 * C + C / 4 + 365 * R + R / 4) + 3) / 146097 = C := by omega
  have hq : (146097 * C) / 4 = 36524 * C + C / 4 := by omega
  have hc : dd + 36524 * C + C / 4 + 365 * R + R / 4 - (36524 * C + C / 4) =
      dd + 365 * R + R / 4 := by ring
  have hd : (4 * (dd + 365 * R + R / 4) + 3) / 1461 = R := by omega
  have hr : (1461 * R) / 4 = 365 * R + R / 4 := by omega
  have he : dd + 365 * R + R / 4 - (365 * R + R / 4) = dd := by ring
  rw [ha, hb, hq, hc, hd, hr, he]

theorem march_month_of_day (M d : Int) (hM : 0 ≤ M ∧ M ≤ 11) (hd : 1 ≤ d ∧ d ≤ 31)
    (h30 : M = 1 ∨ M = 3 ∨ M = 6 ∨ M = 8 → d ≤ 30) (h29 : M = 11 → d ≤ 29) :
    (5 * (d - 1 + (153 * M + 2) / 5) + 2) / 153 = M := by
  have hM3 : M = 0 ∨ M = 1 ∨ M = 2 ∨ M = 3 ∨ M = 4 ∨ M = 5 ∨ M = 6 ∨ M = 7 ∨ M = 8 ∨
      M = 9 ∨ M = 10 ∨ M = 11 := by omega
  rcases hM3 with h | h | h | h | h | h | h | h | h | h | h | h <;> subst h <;> omega

theorem from_day_number_day_number (x : date) (hx : x.valid) :
    from_day_number (day_number x) = x := by
  obtain ⟨y, m, d⟩ := x
  obtain ⟨⟨hy1, hy2⟩, ⟨hm1, hm2⟩, hd1, hd2⟩ := hx
  simp only at hy1 hy2 hm1 hm2 hd1 hd2
  have hd3 : d ≤ 31 ∧ (m = 4 ∨ m = 6 ∨ m = 9 ∨ m = 11 → d ≤ 30) ∧ (m = 2 → d ≤ 29) ∧
      (m = 2 → ¬ (y % 4 = 0 ∧ (y % 100 ≠ 0 ∨ y % 400 = 0)) → d ≤ 28) := by
    unfold end_of_month_day is_leap_year at hd2
    simp only [Bool.and_eq_true, Bool.or_eq_true, beq_iff_eq, bne_iff_ne, ne_eq] at hd2
    split_ifs at hd2 <;> refine ⟨?_, ?_, ?_, ?_⟩ <;> intros <;> omega
  obtain ⟨h31, h30, h29, h28⟩ := hd3
  have hA : (14 - m) / 12 = 0 ∧ 3 ≤ m ∨ (14 - m) / 12 = 1 ∧ m ≤ 2 := by omega
  have hmonth := march_month_of_day (m + 12 * ((14 - m) / 12) - 3) d (by omega) ⟨hd1, h31⟩
    (by omega) (by omega)
  have hn : day_number ⟨y, m, d⟩ =
      (d - 1 + (153 * (m + 12 * ((14 - m) / 12) - 3) + 2) / 5) +
        36524 * ((y + 4800 - (14 - m) / 12) / 100) + ((y + 4800 - (14 - m) / 12) / 100) / 4 +
        365 * ((y + 4800 - (14 - m) / 12) % 100) + ((y + 4800 - (14 - m) / 12) % 100) / 4 -
        32044 := by
    unfold day_number
    simp only
    omega
  rw [hn, from_day_number_of_parts _ _ _ (by omega) (by omega) (by
    intro h365
    have hm2' : m = 2 := by omega
    have := h28 hm2'
    omega)]
  rw [hmonth]
  simp only [date.mk.injEq]
  refine ⟨?_, ?_, ?_⟩ <;> omega

theorem day_number_day (y m d : Int) :
    day_number ⟨y, m, d⟩ = day_number ⟨y, m, 1⟩ + (d - 1) := by
  unfold day_number
  simp only
  omega

theorem first_of_month_step (y m : Int) (hm : 1 ≤ m ∧ m ≤ 12) :
    day_number ⟨y + m / 12, m % 12 + 1, 1⟩ = day_number ⟨y, m, 1⟩ + end_of_month_day y m := by
  have hm2 : m = 1 ∨ m = 2 ∨ m = 3 ∨ m = 4 ∨ m = 5 ∨ m = 6 ∨ m = 7 ∨ m = 8 ∨ m = 9 ∨
      m = 10 ∨ m = 11 ∨ m = 12 := by omega
  unfold day_number end_of_month_day is_leap_year
  rcases hm2 with h | h | h | h | h | h | h | h | h | h | h | h <;> subst h <;>
    simp only [Bool.and_eq_true, Bool.or_eq_true, beq_iff_eq, bne_iff_ne, ne_eq] <;>
    norm_num <;> (try split_ifs) <;> omega

theorem first_of_month_index_step (i : Int) :
    day_number ⟨(i + 1) / 12, (i + 1) % 12 + 1, 1⟩ =
      day_number ⟨i / 12, i % 12 + 1, 1⟩ + end_of_month_day (i / 12) (i % 12 + 1) := by
  have h := first_of_month_step (i / 12) (i % 12 + 1) (by omega)
  have h1 : i / 12 + (i % 12 + 1) / 12 = (i + 1) / 12 := by omega
  have h2 : (i % 12 + 1) % 12 + 1 = (i + 1) % 12 + 1 := by omega
  rw [h1, h2] at h
  exact h

theorem first_of_month_index_mono (i j : Int) (hij : i ≤ j) :
    day_number ⟨i / 12, i % 12 + 1, 1⟩ + 28 * (j - i) ≤ day_number ⟨j / 12, j % 12 + 1, 1⟩ := by
  refine @Int.le_induction
    (fun j => day_number ⟨i / 12, i % 12 + 1, 1⟩ + 28 * (j - i) ≤
      day_number ⟨j / 12, j % 12 + 1, 1⟩) i ?_ ?_ j hij
  · simp
  intro k _ ih
  simp only at ih ⊢
  have h := first_of_month_index_step k
  have hb := (end_of_month_day_bounds (k / 12) (k % 12 + 1)).1
  omega

/-- The serial number is strictly increasing from one calendar month to a later one. -/
theorem day_number_lt_of_month_lt (a b : date) (ha : a.valid) (hb : b.valid)
    (h : 12 * a.year + a.month < 12 * b.year + b.month) : day_number a < day_number b := by
  obtain ⟨_, ⟨ha3, ha4⟩, ha5, ha6⟩ := ha
  obtain ⟨_, ⟨hb3, hb4⟩, hb5, hb6⟩ := hb
  have e1 : day_number a = day_number ⟨a.year, a.month, 1⟩ + (a.day - 1) := day_number_day _ _ _
  have e2 : day_number b = day_number ⟨b.year, b.month, 1⟩ + (b.day - 1) := day_number_day _ _ _
  have s := first_of_month_index_step (12 * a.year + a.month - 1)
  have m := first_of_month_index_mono (12 * a.year + a.month - 1 + 1) (12 * b.year + b.month - 1)
    (by omega)
  have i1 : (12 * a.year + a.month - 1) / 12 = a.year := by omega
  have i2 : (12 * a.year + a.month - 1) % 12 + 1 = a.month := by omega
  have i3 : (12 * b.year + b.month - 1) / 12 = b.year := by omega
  have i4 : (12 * b.year + b.month - 1) % 12 + 1 = b.month := by omega
  rw [i1, i2] at s
  rw [i3, i4] at m
  omega

/-- Within one calendar month the serial number moves with the day of month. -/
theorem day_number_same_month (a b : date) (hy : a.year = b.year) (hm : a.month = b.month) :
    day_number a - day_number b = a.day - b.day := by
  have e1 : day_number a = day_number ⟨a.year, a.month, 1⟩ + (a.day - 1) := day_number_day _ _ _
  have e2 : day_number b = day_number ⟨b.year, b.month, 1⟩ + (b.day - 1) := day_number_day _ _ _
  rw [hy, hm] at e1
  omega

/-! ## Date iterators and the range loops -/

theorem day_number_nonneg_of_valid (d : date) (hv : d.valid) : 0 ≤ day_number d := by
  obtain ⟨⟨h1, h2⟩, ⟨h3, h4⟩, h5, h6⟩ := hv
  unfold day_number
  simp only
  omega

theorem mkDate_spec {y m d : Int} {r : date} (h : mkDate y m d = Except.ok r) :
    r = ⟨y, m, d⟩ ∧ r.valid := by
  unfold mkDate at h
  split_ifs at h with h1 h2 h3 h4
  injection h with h
  subst h
  refine ⟨rfl, ⟨?_, ?_⟩, ⟨?_, ?_⟩, ?_, ?_⟩ <;> simp only <;> omega

/-- What one application of the month functor returns, when it returns. -/
theorem month_functor_step_spec (orig f : Int) (d : date) (hv : d.valid) (hf : 0 ≤ f)
    (o : Int) (r : date) (h : month_functor_step orig f d = Except.ok (o, r)) :
    r.valid ∧ r.year = d.year + (d.month - 1 + f) / 12 ∧
      r.month = (d.month - 1 + f) % 12 + 1 ∧
      o = (if orig = 0 then (if end_of_month_day d.year d.month = d.day then -1 else d.day)
            else orig) ∧
      r.day = (if o = -1 then end_of_month_day r.year r.month
            else if end_of_month_day r.year r.month < o then end_of_month_day r.year r.month
            else o) := by
  have hv0 := hv
  obtain ⟨_, ⟨h3, h4⟩, _⟩ := hv
  unfold month_functor_step at h
  rw [year_month_day_ok hv0] at h
  simp only [wrapping_int2_add_nonneg d.month f h3 h4 hf] at h
  generalize hO : (if orig = 0 then (if end_of_month_day d.year d.month = d.day then -1
    else d.day) else orig) = O at h ⊢
  split_ifs at h with hr ho hlt
  · split at h
    · cases h
    · rename_i r1 hmk
      injection h with h
      injection h with h1 h2
      subst h2
      obtain ⟨hr1, hr2⟩ := mkDate_spec hmk
      subst hr1
      subst h1
      refine ⟨hr2, rfl, rfl, rfl, ?_⟩
      rw [if_pos ho]
  · split at h
    · cases h
    · rename_i r1 hmk
      injection h with h
      injection h with h1 h2
      subst h2
      obtain ⟨hr1, hr2⟩ := mkDate_spec hmk
      subst hr1
      subst h1
      refine ⟨hr2, rfl, rfl, rfl, ?_⟩
      rw [if_neg ho, if_pos hlt]
  · split at h
    · cases h
    · rename_i r1 hmk
      injection h with h
      injection h with h1 h2
      subst h2
      obtain ⟨hr1, hr2⟩ := mkDate_spec hmk
      subst hr1
      subst h1
      refine ⟨hr2, rfl, rfl, rfl, ?_⟩
      rw [if_neg ho, if_neg hlt]


/-- The month functor returns a date whenever the target month is not past
December 9999 and the remembered day of month is a legal state. -/
theorem month_functor_step_ok (orig f : Int) (d : date) (hv : d.valid) (hf : 0 ≤ f)
    (hr : d.year + (d.month - 1 + f) / 12 ≤ 9999)
    (ho : orig = 0 ∨ orig = -1 ∨ 1 ≤ orig) :
    ∃ o r, month_functor_step orig f d = Except.ok (o, r) := by
  have hv0 := hv
  obtain ⟨⟨h1, h2⟩, ⟨h3, h4⟩, h5, h6⟩ := hv
  have hq : 0 ≤ (d.month - 1 + f) / 12 := Int.ediv_nonneg (by omega) (by omega)
  have hb := end_of_month_day_bounds (d.year + (d.month - 1 + f) / 12) ((d.month - 1 + f) % 12 + 1)
  unfold month_functor_step
  rw [year_month_day_ok hv0]
  simp only [wrapping_int2_add_nonneg d.month f h3 h4 hf]
  generalize hO : (if orig = 0 then (if end_of_month_day d.year d.month = d.day then -1
    else d.day) else orig) = O
  have hO2 : O = -1 ∨ 1 ≤ O := by
    rw [← hO]
    split_ifs <;> omega
  rw [if_neg (by omega)]
  split_ifs with h1 h2
  · have hval : date.valid ⟨d.year + (d.month - 1 + f) / 12, (d.month - 1 + f) % 12 + 1,
        end_of_month_day (d.year + (d.month - 1 + f) / 12) ((d.month - 1 + f) % 12 + 1)⟩ := by
      refine ⟨⟨?_, ?_⟩, ⟨?_, ?_⟩, ?_, ?_⟩ <;> simp only <;> omega
    rw [mkDate_ok hval]
    exact ⟨_, _, rfl⟩
  · have hval : date.valid ⟨d.year + (d.month - 1 + f) / 12, (d.month - 1 + f) % 12 + 1,
        end_of_month_day (d.year + (d.month - 1 + f) / 12) ((d.month - 1 + f) % 12 + 1)⟩ := by
      refine ⟨⟨?_, ?_⟩, ⟨?_, ?_⟩, ?_, ?_⟩ <;> simp only <;> omega
    rw [mkDate_ok hval]
    exact ⟨_, _, rfl⟩
  · have hval : date.valid ⟨d.year + (d.month - 1 + f) / 12, (d.month - 1 + f) % 12 + 1, O⟩ := by
      refine ⟨⟨?_, ?_⟩, ⟨?_, ?_⟩, ?_, ?_⟩ <;> simp only <;> omega
    rw [mkDate_ok hval]
    exact ⟨_, _, rfl⟩

theorem stepMonths_pos (kind : IteratorKind) (f : Int) (hf : 1 ≤ f)
    (hk : kind = IteratorKind.month_iterator ∨ kind = IteratorKind.year_iterator) :
    1 ≤ date_itr.stepMonths kind f := by
  rcases hk with h | h <;> subst h <;> simp only [date_itr.stepMonths] <;> omega

/-- One increment of a date iterator, when it returns: the invariant is kept, the
kind and factor are unchanged and the serial number of the current date grows. -/
theorem date_itr_next_spec (it it1 : date_itr) (hinv : it.Inv) (h : it.next = Except.ok it1) :
    it1.Inv ∧ it1.kind = it.kind ∧ it1.f = it.f ∧
      day_number it.current < day_number it1.current ∧
      ((it.kind = IteratorKind.day_iterator →
          day_number it1.current = day_number it.current + it.f) ∧
       (it.kind = IteratorKind.week_iterator →
          day_number it1.current = day_number it.current + it.f * 7) ∧
       ((it.kind = IteratorKind.month_iterator ∨ it.kind = IteratorKind.year_iterator) →
          12 * it1.current.year + it1.current.month =
            12 * it.current.year + it.current.month + date_itr.stepMonths it.kind it.f)) := by
  obtain ⟨kind, cur, f, orig⟩ := it
  obtain ⟨hf, hn, hm⟩ := hinv
  simp only at hf hn hm
  cases kind with
  | day_iterator =>
    simp only [date_itr.next] at h
    injection h with h
    subst h
    have e : day_number (addDays cur f) = day_number cur + f :=
      day_number_from_day_number _ (by omega)
    refine ⟨⟨hf, ?_, ?_⟩, rfl, rfl, ?_, ?_, ?_, ?_⟩
    · simp only; omega
    · intro hk; simp at hk
    · simp only; omega
    · intro _; exact e
    · intro hk; simp at hk
    · intro hk; simp at hk
  | week_iterator =>
    simp only [date_itr.next] at h
    injection h with h
    subst h
    have e : day_number (addDays cur (f * 7)) = day_number cur + f * 7 :=
      day_number_from_day_number _ (by omega)
    refine ⟨⟨hf, ?_, ?_⟩, rfl, rfl, ?_, ?_, ?_, ?_⟩
    · simp only; omega
    · intro hk; simp at hk
    · simp only; omega
    · intro hk; simp at hk
    · intro _; exact e
    · intro hk; simp at hk
  | month_iterator =>
    obtain ⟨hv, ho⟩ := hm (Or.inl rfl)
    simp only [date_itr.next] at h
    split at h
    · cases h
    · rename_i r hstep
      injection h with h
      subst h
      obtain ⟨o, r⟩ := r
      obtain ⟨hrv, hry, hrm, hro, _⟩ := month_functor_step_spec orig f cur hv (by omega) o r hstep
      have hidx : 12 * r.year + r.month = 12 * cur.year + cur.month + f := by
        rw [hry, hrm]; omega
      have hlt : day_number cur < day_number r :=
        day_number_lt_of_month_lt cur r hv hrv (by omega)
      refine ⟨⟨hf, ?_, ?_⟩, rfl, rfl, hlt, ?_, ?_, ?_⟩
      · simp only; omega
      · intro _
        refine ⟨hrv, ?_⟩
        simp only
        rw [hro]
        obtain ⟨_, _, h5, _⟩ := hv
        split_ifs <;> omega
      · intro hk; simp at hk
      · intro hk; simp at hk
      · intro _; simpa [date_itr.stepMonths] using hidx
  | year_iterator =>
    obtain ⟨hv, ho⟩ := hm (Or.inr rfl)
    simp only [date_itr.next] at h
    split at h
    · cases h
    · rename_i r hstep
      injection h with h
      subst h
      obtain ⟨o, r⟩ := r
      obtain ⟨hrv, hry, hrm, hro, _⟩ :=
        month_functor_step_spec orig (f * 12) cur hv (by omega) o r hstep
      have hidx : 12 * r.year + r.month = 12 * cur.year + cur.month + f * 12 := by
        rw [hry, hrm]; omega
      have hlt : day_number cur < day_number r :=
        day_number_lt_of_month_lt cur r hv hrv (by omega)
      refine ⟨⟨hf, ?_, ?_⟩, rfl, rfl, hlt, ?_, ?_, ?_⟩
      · simp only; omega
      · intro _
        refine ⟨hrv, ?_⟩
        simp only
        rw [hro]
        obtain ⟨_, _, h5, _⟩ := hv
        split_ifs <;> omega
      · intro hk; simp at hk
      · intro hk; simp at hk
      · intro _; simpa [date_itr.stepMonths] using hidx

/-- One increment of a date iterator returns: always for the day and week
iterators, and for the month and year iterators when the month it steps to is
not past December 9999. -/
theorem date_itr_next_ok (it : date_itr) (hinv : it.Inv)
    (hr : (it.kind = IteratorKind.month_iterator ∨ it.kind = IteratorKind.year_iterator) →
      it.current.year + (it.current.month - 1 + date_itr.stepMonths it.kind it.f) / 12 ≤ 9999) :
    ∃ it1, it.next = Except.ok it1 := by
  obtain ⟨kind, cur, f, orig⟩ := it
  obtain ⟨hf, hn, hm⟩ := hinv
  simp only at hf hn hm hr
  cases kind with
  | day_iterator => exact ⟨_, rfl⟩
  | week_iterator => exact ⟨_, rfl⟩
  | month_iterator =>
    obtain ⟨hv, ho⟩ := hm (Or.inl rfl)
    obtain ⟨o, r, hstep⟩ := month_functor_step_ok orig f cur hv (by omega)
      (by simpa [date_itr.stepMonths] using hr (Or.inl rfl)) ho
    simp only [date_itr.next, hstep]
    exact ⟨_, rfl⟩
  | year_iterator =>
    obtain ⟨hv, ho⟩ := hm (Or.inr rfl)
    obtain ⟨o, r, hstep⟩ := month_functor_step_ok orig (f * 12) cur hv (by omega)
      (by simpa [date_itr.stepMonths] using hr (Or.inr rfl)) ho
    simp only [date_itr.next, hstep]
    exact ⟨_, rfl⟩


/-- What the bounded loop returns, when it returns: the accumulator followed by the
timestamps of a list of positions that starts at the current date, is strictly
increasing and stays between the current date and the end date. -/
theorem date_range_loop_spec (end_ : date) :
    ∀ (fuel : Nat) (it : date_itr) (acc ts : List Int), it.Inv →
      date_range_loop end_ fuel it acc = Except.ok ts →
      ∃ ps : List date, ts = acc ++ ps.map fromDate ∧
        (∀ p ∈ ps, day_number it.current ≤ day_number p ∧ day_number p ≤ day_number end_) ∧
        ps.Pairwise (fun a b => day_number a < day_number b) ∧
        (day_number it.current ≤ day_number end_ → ps.head? = some it.current) := by
  intro fuel
  induction fuel with
  | zero =>
    intro it acc ts _ h
    simp only [date_range_loop] at h
    split_ifs at h with hle
    injection h with h
    subst h
    exact ⟨[], by simp, by simp, List.Pairwise.nil, fun h => absurd h hle⟩
  | succ n ih =>
    intro it acc ts hinv h
    simp only [date_range_loop] at h
    split_ifs at h with hle
    · split at h
      · cases h
      · rename_i it1 hnext
        obtain ⟨hinv1, _, _, hlt, _⟩ := date_itr_next_spec it it1 hinv hnext
        obtain ⟨ps, hts, hmem, hpw, _⟩ := ih it1 _ ts hinv1 h
        refine ⟨it.current :: ps, ?_, ?_, ?_, ?_⟩
        · rw [hts]; simp
        · intro p hp
          rcases List.mem_cons.1 hp with hp | hp
          · subst hp; exact ⟨le_refl _, hle⟩
          · have := hmem p hp
            omega
        · refine List.Pairwise.cons ?_ hpw
          intro p hp
          have := hmem p hp
          omega
        · intro _; rfl
    · injection h with h
      subst h
      exact ⟨[], by simp, by simp, List.Pairwise.nil, fun h => absurd h hle⟩

/-- The bounded loop returns when its budget covers the days left to the end date
and, for the month and year iterators, stepping from the end date's month stays
within the supported years. -/
theorem date_range_loop_ok (end_ : date) (hend : end_.valid) :
    ∀ (fuel : Nat) (it : date_itr) (acc : List Int), it.Inv →
      day_number end_ - day_number it.current + 1 ≤ (fuel : Int) →
      ((it.kind = IteratorKind.month_iterator ∨ it.kind = IteratorKind.year_iterator) →
        end_.year + (end_.month - 1 + date_itr.stepMonths it.kind it.f) / 12 ≤ 9999) →
      ∃ ts, date_range_loop end_ fuel it acc = Except.ok ts := by
  intro fuel
  induction fuel with
  | zero =>
    intro it acc _ hfuel _
    simp only [date_range_loop]
    rw [if_neg (by simp at hfuel; omega)]
    exact ⟨_, rfl⟩
  | succ n ih =>
    intro it acc hinv hfuel hr
    simp only [date_range_loop]
    split_ifs with hle
    · have hnext : ∃ it1, it.next = Except.ok it1 := by
        apply date_itr_next_ok it hinv
        intro hk
        have hcv := (hinv.2.2 hk).1
        have hs := stepMonths_pos it.kind it.f hinv.1 hk
        have hidx : 12 * it.current.year + it.current.month ≤ 12 * end_.year + end_.month := by
          by_contra hcon
          have := day_number_lt_of_month_lt end_ it.current hend hcv (by omega)
          omega
        have := hr hk
        obtain ⟨_, ⟨_, _⟩, _⟩ := hcv
        obtain ⟨_, ⟨_, _⟩, _⟩ := hend
        omega
      obtain ⟨it1, hnext⟩ := hnext
      obtain ⟨hinv1, hk1, hf1, hlt, _⟩ := date_itr_next_spec it it1 hinv hnext
      rw [hnext]
      simp only
      apply ih it1 _ hinv1
      · push_cast at hfuel; omega
      · rw [hk1, hf1]; exact hr
    · exact ⟨_, rfl⟩

/-- What the counted generation returns, when it returns: the timestamps of `n`
strictly increasing positions, the first of which is the current date. -/
theorem generate_n_spec :
    ∀ (n : Nat) (it : date_itr) (ts : List Int), it.Inv →
      generate_n n it = Except.ok ts →
      ∃ ps : List date, ts = ps.map fromDate ∧ ps.length = n ∧
        (∀ p ∈ ps, day_number it.current ≤ day_number p) ∧
        ps.Pairwise (fun a b => day_number a < day_number b) ∧
        (0 < n → ps.head? = some it.current) := by
  intro n
  induction n with
  | zero =>
    intro it ts _ h
    simp only [generate_n] at h
    injection h with h
    subst h
    exact ⟨[], rfl, rfl, by simp, List.Pairwise.nil, fun h => absurd h (lt_irrefl _)⟩
  | succ n ih =>
    intro it ts hinv h
    simp only [generate_n] at h
    split at h
    · cases h
    · rename_i it1 hnext
      obtain ⟨hinv1, _, _, hlt, _⟩ := date_itr_next_spec it it1 hinv hnext
      split at h
      · cases h
      · rename_i rest hrest
        injection h with h
        subst h
        obtain ⟨ps, hts, hlen, hmem, hpw, _⟩ := ih it1 rest hinv1 hrest
        refine ⟨it.current :: ps, ?_, ?_, ?_, ?_, ?_⟩
        · rw [hts]; rfl
        · simp [hlen]
        · intro p hp
          rcases List.mem_cons.1 hp with hp | hp
          · subst hp; exact le_refl _
          · have := hmem p hp
            omega
        · refine List.Pairwise.cons ?_ hpw
          intro p hp
          have := hmem p hp
          omega
        · intro _; rfl

/-- The counted generation returns: always for the day and week iterators, and
for the month and year iterators when the month reached after `n` increments is
not past December 9999. -/
theorem generate_n_ok :
    ∀ (n : Nat) (it : date_itr), it.Inv →
      ((it.kind = IteratorKind.month_iterator ∨ it.kind = IteratorKind.year_iterator) →
        it.current.year +
          (it.current.month - 1 + (n : Int) * date_itr.stepMonths it.kind it.f) / 12 ≤ 9999) →
      ∃ ts, generate_n n it = Except.ok ts := by
  intro n
  induction n with
  | zero =>
    intro it _ _
    exact ⟨_, rfl⟩
  | succ n ih =>
    intro it hinv hr
    have hnext : ∃ it1, it.next = Except.ok it1 := by
      apply date_itr_next_ok it hinv
      intro hk
      have hs := stepMonths_pos it.kind it.f hinv.1 hk
      have := hr hk
      have hmul : ((n + 1 : Nat) : Int) * date_itr.stepMonths it.kind it.f =
          (n : Int) * date_itr.stepMonths it.kind it.f + date_itr.stepMonths it.kind it.f := by
        push_cast; ring
      rw [hmul] at this
      have hnn : 0 ≤ (n : Int) * date_itr.stepMonths it.kind it.f :=
        mul_nonneg (by omega) (by omega)
      generalize (n : Int) * date_itr.stepMonths it.kind it.f = t at this hnn
      omega
    obtain ⟨it1, hnext⟩ := hnext
    obtain ⟨hinv1, hk1, hf1, hlt, _, _, hidx⟩ := date_itr_next_spec it it1 hinv hnext
    have hrest : ∃ ts, generate_n n it1 = Except.ok ts := by
      apply ih it1 hinv1
      intro hk
      rw [hk1] at hk
      have := hr hk
      have hi := hidx hk
      have hmul : ((n + 1 : Nat) : Int) * date_itr.stepMonths it.kind it.f =
          (n : Int) * date_itr.stepMonths it.kind it.f + date_itr.stepMonths it.kind it.f := by
        push_cast; ring
      rw [hmul] at this
      rw [hk1, hf1]
      generalize (n : Int) * date_itr.stepMonths it.kind it.f = t at this
      have hcv := (hinv.2.2 hk).1
      have hcv1 := (hinv1.2.2 (by rw [hk1]; exact hk)).1
      obtain ⟨_, ⟨_, _⟩, _⟩ := hcv
      obtain ⟨_, ⟨_, _⟩, _⟩ := hcv1
      omega
    obtain ⟨rest, hrest⟩ := hrest
    simp only [generate_n, hnext, hrest]
    exact ⟨_, rfl⟩

/-! ## The range templates -/

theorem date_itr_init_Inv (kind : IteratorKind) (start : date) (freq : Int)
    (hs : start.valid) (hf : 1 ≤ freq) : (date_itr.init kind start freq).Inv :=
  ⟨hf, day_number_nonneg_of_valid start hs, fun _ => ⟨hs, Or.inl rfl⟩⟩

theorem fromDate_lt {a b : date} (h : day_number a < day_number b) : fromDate a < fromDate b := by
  unfold fromDate
  omega

/-- What the bounded calendar template returns, when it returns. -/
theorem date_range_date_date_spec (kind : IteratorKind) (start end_ : date) (freq : Int)
    (tz : CppString) (arr : TimestampArray) (hs : start.valid)
    (h : date_range_date_date kind start end_ freq tz = Except.ok arr) :
    day_number start < day_number end_ ∧ 1 ≤ freq ∧ arr.timezone = tz ∧
      ∃ ps : List date, arr.values = ps.map fromDate ∧ ps ≠ [] ∧ ps.head? = some start ∧
        ps.Pairwise (fun a b => day_number a < day_number b) ∧
        (∀ p ∈ ps, day_number start ≤ day_number p ∧ day_number p ≤ day_number end_) := by
  unfold date_range_date_date at h
  split_ifs at h with h1 h2
  split at h
  · cases h
  · rename_i ts hloop
    injection h with h
    subst h
    obtain ⟨ps, hts, hmem, hpw, hhead⟩ := date_range_loop_spec end_ _ _ [] ts
      (date_itr_init_Inv kind start freq hs (by omega)) hloop
    have hh := hhead (by simp only [date_itr.init]; omega)
    refine ⟨by omega, by omega, rfl, ps, ?_, ?_, hh, hpw, hmem⟩
    · simpa [toDateTime] using hts
    · intro hnil
      rw [hnil] at hh
      simp [date_itr.init] at hh

/-- The bounded calendar template returns when start precedes end, the factor is
at least 1 and, for the month and year iterators, stepping from the end date's
month stays within the supported years. -/
theorem date_range_date_date_ok (kind : IteratorKind) (start end_ : date) (freq : Int)
    (tz : CppString) (hs : start.valid) (he : end_.valid)
    (hlt : day_number start < day_number end_) (hf : 1 ≤ freq)
    (hr : (kind = IteratorKind.month_iterator ∨ kind = IteratorKind.year_iterator) →
      end_.year + (end_.month - 1 + date_itr.stepMonths kind freq) / 12 ≤ 9999) :
    ∃ arr, date_range_date_date kind start end_ freq tz = Except.ok arr := by
  unfold date_range_date_date
  rw [if_neg (by omega), if_neg (by omega)]
  obtain ⟨ts, hts⟩ := date_range_loop_ok end_ he
    (day_number end_ - day_number start + 1).toNat (date_itr.init kind start freq) []
    (date_itr_init_Inv kind start freq hs hf)
    (by simp only [date_itr.init]; omega) hr
  rw [hts]
  exact ⟨_, rfl⟩

/-- The bounded calendar template fails when start does not precede end or the
factor is below 1. -/
theorem date_range_date_date_error (kind : IteratorKind) (start end_ : date) (freq : Int)
    (tz : CppString) (h : day_number end_ ≤ day_number start ∨ freq < 1) :
    ∃ e, date_range_date_date kind start end_ freq tz = Except.error e := by
  unfold date_range_date_date
  split_ifs with h1 h2
  · exact ⟨_, rfl⟩
  · exact ⟨_, rfl⟩
  · omega

/-- What the counted calendar template returns, when it returns. -/
theorem date_range_date_int_spec (kind : IteratorKind) (start : date) (period freq : Int)
    (tz : CppString) (arr : TimestampArray) (hs : start.valid)
    (h : date_range_date_int kind start period freq tz = Except.ok arr) :
    0 ≤ period ∧ 1 ≤ freq ∧ arr.timezone = toDateTime_default_tz ∧
      ∃ ps : List date, arr.values = ps.map fromDate ∧ (ps.length : Int) = period ∧
        (0 < period → ps.head? = some start) ∧
        ps.Pairwise (fun a b => day_number a < day_number b) := by
  unfold date_range_date_int at h
  split_ifs at h with h1 h2
  split at h
  · cases h
  · rename_i ts hgen
    injection h with h
    subst h
    obtain ⟨ps, hts, hlen, _, hpw, hhead⟩ := generate_n_spec period.toNat _ ts
      (date_itr_init_Inv kind start freq hs (by omega)) hgen
    refine ⟨by omega, by omega, rfl, ps, ?_, ?_, ?_, hpw⟩
    · simpa [toDateTime] using hts
    · rw [hlen]; omega
    · intro hp
      exact hhead (by omega)

/-- The counted calendar template returns when the count is not negative, the
factor is at least 1 and, for the month and year iterators, the month reached
after `period` increments is not past December 9999. -/
theorem date_range_date_int_ok (kind : IteratorKind) (start : date) (period freq : Int)
    (tz : CppString) (hs : start.valid) (hp : 0 ≤ period) (hf : 1 ≤ freq)
    (hr : (kind = IteratorKind.month_iterator ∨ kind = IteratorKind.year_iterator) →
      start.year + (start.month - 1 + period * date_itr.stepMonths kind freq) / 12 ≤ 9999) :
    ∃ arr, date_range_date_int kind start period freq tz = Except.ok arr := by
  unfold date_range_date_int
  rw [if_neg (by omega), if_neg (by omega)]
  obtain ⟨ts, hts⟩ := generate_n_ok period.toNat (date_itr.init kind start freq)
    (date_itr_init_Inv kind start freq hs hf)
    (by
      intro hk
      have := hr hk
      simp only [date_itr.init]
      rw [Int.toNat_of_nonneg hp]
      exact this)
  rw [hts]
  exact ⟨_, rfl⟩


theorem range_succ_map_shift (k : Nat) (it freq : Int) :
    (List.range (k + 1)).map (fun i : Nat => it + (i : Int) * freq) =
      it :: (List.range k).map (fun i : Nat => it + freq + (i : Int) * freq) := by
  rw [List.range_succ_eq_map]
  simp only [List.map_cons, List.map_map]
  congr 1
  · simp
  · apply List.map_congr_left
    intro i _
    simp only [Function.comp, Nat.succ_eq_add_one]
    push_cast
    ring

/-- What the bounded date-time loop returns, when it returns: the accumulator
followed by the positions `it + i * freq`, `i < k`, all at most `end_`, where
`k` is the first index whose position exceeds `end_`. -/
theorem time_range_loop_spec (end_ freq : Int) :
    ∀ (fuel : Nat) (it : Int) (acc ts : List Int),
      time_range_loop end_ freq fuel it acc = Except.ok ts →
      ∃ k : Nat, ts = acc ++ (List.range k).map (fun i : Nat => it + (i : Int) * freq) ∧
        (∀ i : Nat, i < k → it + (i : Int) * freq ≤ end_) ∧
        end_ < it + (k : Int) * freq := by
  intro fuel
  induction fuel with
  | zero =>
    intro it acc ts h
    simp only [time_range_loop] at h
    split_ifs at h with hle
    injection h with h
    subst h
    refine ⟨0, by simp, by simp, ?_⟩
    simp only [Nat.cast_zero, zero_mul, add_zero]
    have hle1 : ¬ ((it : Int) ≤ (end_ : Int)) := hle
    omega
  | succ n ih =>
    intro it acc ts h
    simp only [time_range_loop] at h
    split_ifs at h with hle
    · obtain ⟨k, hts, hmem, hend⟩ := ih (it + freq) _ ts h
      refine ⟨k + 1, ?_, ?_, ?_⟩
      · rw [hts, range_succ_map_shift]
        simp [fromPTime]
      · intro i hi
        cases i with
        | zero => simpa using hle
        | succ j =>
          have := hmem j (by omega)
          push_cast
          have e : it + ((j : Int) + 1) * freq = it + freq + (j : Int) * freq := by ring
          rw [e]
          exact this
      · push_cast
        have e : it + ((k : Int) + 1) * freq = it + freq + (k : Int) * freq := by ring
        rw [e]
        exact hend
    · injection h with h
      subst h
      refine ⟨0, by simp, by simp, ?_⟩
      simp only [Nat.cast_zero, zero_mul, add_zero]
      have hle1 : ¬ ((it : Int) ≤ (end_ : Int)) := hle
      omega

/-- The bounded date-time loop returns when its budget covers the whole steps left
to the end. -/
theorem time_range_loop_ok (end_ freq : Int) (hf : 0 < freq) :
    ∀ (fuel : Nat) (it : Int) (acc : List Int),
      (end_ - it) / freq + 1 ≤ (fuel : Int) →
      ∃ ts, time_range_loop end_ freq fuel it acc = Except.ok ts := by
  intro fuel
  induction fuel with
  | zero =>
    intro it acc hfuel
    simp only [time_range_loop]
    have hneg : ¬ it ≤ end_ := by
      intro hle
      have : 0 ≤ (end_ - it) / freq := Int.ediv_nonneg (by omega) (by omega)
      simp at hfuel
      omega
    rw [if_neg hneg]
    exact ⟨_, rfl⟩
  | succ n ih =>
    intro it acc hfuel
    simp only [time_range_loop]
    split_ifs with hle
    · apply ih
      have e : (end_ - (it + freq)) / freq = (end_ - it) / freq - 1 := by
        have h1 : end_ - (it + freq) = (end_ - it) + (-1) * freq := by ring
        rw [h1, Int.add_mul_ediv_right _ _ (by omega)]
        ring
      rw [e]
      push_cast at hfuel
      omega
    · exact ⟨_, rfl⟩

theorem generate_n_time_eq (freq : Int) :
    ∀ (n : Nat) (it : Int),
      generate_n_time freq n it = (List.range n).map (fun i : Nat => it + (i : Int) * freq) := by
  intro n
  induction n with
  | zero => intro it; rfl
  | succ k ih =>
    intro it
    rw [range_succ_map_shift]
    simp only [generate_n_time, ih, fromPTime]

theorem pairwise_lt_positions (k : Nat) (it freq : Int) (hf : 0 < freq) :
    ((List.range k).map (fun i : Nat => it + (i : Int) * freq)).Pairwise (fun a b => a < b) := by
  rw [List.pairwise_map]
  refine List.Pairwise.imp ?_ (List.pairwise_lt_range k)
  intro a b hab
  have h1 : (a : Int) < (b : Int) := by exact_mod_cast hab
  have := Int.mul_lt_mul_of_pos_right h1 hf
  omega


/-! ## Bounded and counted ranges -/

/-- A product that fits a 32-bit `int` is not changed by the wrap-around. -/
theorem int32_wrap_eq (x : Int) (h1 : INT_MIN ≤ x) (h2 : x ≤ INT_MAX) : int32_wrap x = x := by
  unfold INT_MIN at h1
  unfold INT_MAX at h2
  unfold int32_wrap
  omega

/-- What `switchFunction` returns on an end date, when it returns: the list of
positions behind the timestamps, and the timezone label. -/
theorem switchFunction_endDate_spec (start end_ : date) (freq : DateOffset) (tz : CppString)
    (arr : TimestampArray) (hs : start.valid)
    (h : switchFunction start (EndOrPeriod.endDate end_) freq tz = Except.ok arr) :
    day_number start < day_number end_ ∧ arr.timezone = tz ∧
      ∃ ps : List date, arr.values = ps.map fromDate ∧ ps ≠ [] ∧ ps.head? = some start ∧
        ps.Pairwise (fun a b => day_number a < day_number b) ∧
        (∀ p ∈ ps, day_number start ≤ day_number p ∧ day_number p ≤ day_number end_) := by
  obtain ⟨type, m⟩ := freq
  cases type <;> simp only [switchFunction, date_range_tmpl] at h
  case Day =>
    obtain ⟨h1, _, h3, h4⟩ := date_range_date_date_spec _ _ _ _ _ _ hs h
    exact ⟨h1, h3, h4⟩
  case MonthStart =>
    obtain ⟨h1, _, h3, h4⟩ := date_range_date_date_spec _ _ _ _ _ _ hs h
    exact ⟨h1, h3, h4⟩
  case WeekStart =>
    obtain ⟨h1, _, h3, h4⟩ := date_range_date_date_spec _ _ _ _ _ _ hs h
    exact ⟨h1, h3, h4⟩
  case YearStart =>
    obtain ⟨h1, _, h3, h4⟩ := date_range_date_date_spec _ _ _ _ _ _ hs h
    exact ⟨h1, h3, h4⟩
  case QuarterStart =>
    rw [year_month_day_ok hs] at h
    simp only at h
    split_ifs at h with hg
    obtain ⟨h1, _, h3, h4⟩ := date_range_date_date_spec _ _ _ _ _ _ hs h
    exact ⟨h1, h3, h4⟩
  all_goals cases h

/-- What the bounded date-time range returns, when it returns. -/
theorem date_range_ptime_ptime_spec (start end_ freq : Int) (tz : CppString)
    (arr : TimestampArray) (h : date_range_ptime_ptime start end_ freq tz = Except.ok arr) :
    start < end_ ∧ 0 < freq ∧ arr.timezone = tz ∧
      ∃ ps : List Int, arr.values = ps.map fromPTime ∧ ps ≠ [] ∧ ps.head? = some start ∧
        ps.Pairwise (fun a b => a < b) ∧
        (∀ p ∈ ps, start ≤ p ∧ p ≤ end_) ∧
        arr.values.Pairwise (fun a b => a < b) := by
  unfold date_range_ptime_ptime at h
  split_ifs at h with h1 h2
  split at h
  · cases h
  · rename_i ts hloop
    injection h with h
    subst h
    have h1a : ¬ (end_ ≤ start) := h1
    have h2a : ¬ (freq < 0 ∨ freq = 0) := h2
    have hf : (0 : Int) < freq := by omega
    obtain ⟨k, hts, hmem, hend⟩ := time_range_loop_spec end_ freq _ start [] ts hloop
    have hk : 0 < k := by
      rcases Nat.eq_zero_or_pos k with h0 | h0
      · subst h0
        simp only [Nat.cast_zero, zero_mul, add_zero] at hend
        omega
      · exact h0
    have hpw := pairwise_lt_positions k start freq hf
    refine ⟨by omega, hf, rfl,
      (List.range k).map (fun i : Nat => start + (i : Int) * freq), ?_, ?_, ?_, hpw, ?_, ?_⟩
    · simp only [toDateTime, List.nil_append] at hts ⊢
      rw [hts]
      simp [fromPTime]
    · obtain ⟨j, rfl⟩ : ∃ j, k = j + 1 := ⟨k - 1, by omega⟩
      rw [range_succ_map_shift]
      simp
    · obtain ⟨j, rfl⟩ : ∃ j, k = j + 1 := ⟨k - 1, by omega⟩
      rw [range_succ_map_shift]
      simp
    · intro p hp
      obtain ⟨i, hi, rfl⟩ := List.mem_map.1 hp
      have hi2 := List.mem_range.1 hi
      have hle : start + (i : Int) * freq ≤ end_ := hmem i hi2
      have hnn : 0 ≤ (i : Int) * freq := mul_nonneg (by omega) (by omega)
      constructor
      · omega
      · exact hle
    · simp only [toDateTime, List.nil_append] at hts ⊢
      rw [hts]
      simpa [fromPTime] using hpw

/-- C11: every bounded range request that is accepted produces a non-empty
sequence of positions whose first element is `start`, that is strictly
increasing (so without duplicates) and whose elements all lie in the closed
interval from `start` to `end`; the timestamps handed over are those of the
positions, in the same order. First part: the calendar path, for any offset
(a returned sequence implies a supported kind and start before end). Second
part: the date-time path. -/
theorem bounded_range_positions :
    (∀ (start end_ : date) (freq : DateOffset) (tz : CppString) (arr : TimestampArray),
      start.valid →
      date_range_date_date_offset start end_ freq tz = Except.ok arr →
      ∃ ps : List date, arr.values = ps.map fromDate ∧ ps ≠ [] ∧ ps.head? = some start ∧
        ps.Pairwise (fun a b => day_number a < day_number b) ∧
        (∀ p ∈ ps, day_number start ≤ day_number p ∧ day_number p ≤ day_number end_) ∧
        arr.values.Pairwise (fun a b => a < b)) ∧
    (∀ (start end_ : ptime) (freq : time_duration) (tz : CppString) (arr : TimestampArray),
      date_range_ptime_ptime start end_ freq tz = Except.ok arr →
      ∃ ps : List ptime, arr.values = ps.map fromPTime ∧ ps ≠ [] ∧ ps.head? = some start ∧
        ps.Pairwise (fun a b => a < b) ∧
        (∀ p ∈ ps, start ≤ p ∧ p ≤ end_) ∧
        arr.values.Pairwise (fun a b => a < b)) := by
  constructor
  · intro start end_ freq tz arr hs h
    obtain ⟨_, _, ps, hv, hne, hh, hpw, hmem⟩ :=
      switchFunction_endDate_spec start end_ freq tz arr hs h
    refine ⟨ps, hv, hne, hh, hpw, hmem, ?_⟩
    rw [hv, List.pairwise_map]
    exact List.Pairwise.imp (fun hab => fromDate_lt hab) hpw
  · intro start end_ freq tz arr h
    exact (date_range_ptime_ptime_spec start end_ freq tz arr h).2.2.2

/-- C11, on two accepted requests: month starts from 2021-01-01 to 2021-03-15,
and six-hour steps over one day from 2021-01-01T00:00. -/
theorem bounded_range_positions_witness :
    (∃ ps : List date,
      ([fromDate ⟨2021, 1, 1⟩, fromDate ⟨2021, 2, 1⟩, fromDate ⟨2021, 3, 1⟩] : List Int) =
        ps.map fromDate ∧ ps ≠ [] ∧
      ps.head? = some ⟨2021, 1, 1⟩ ∧
      ps.Pairwise (fun a b => day_number a < day_number b) ∧
      (∀ p ∈ ps, day_number ⟨2021, 1, 1⟩ ≤ day_number p ∧
        day_number p ≤ day_number ⟨2021, 3, 15⟩) ∧
      ([fromDate ⟨2021, 1, 1⟩, fromDate ⟨2021, 2, 1⟩, fromDate ⟨2021, 3, 1⟩] :
        List Int).Pairwise (fun a b => a < b)) ∧
    (∃ ps : List ptime,
      ([1609459200000000000, 1609480800000000000, 1609502400000000000, 1609524000000000000,
        1609545600000000000] : List Int) = ps.map fromPTime ∧ ps ≠ [] ∧
      ps.head? = some 1609459200000000000 ∧
      ps.Pairwise (fun a b => a < b) ∧
      (∀ p ∈ ps, (1609459200000000000 : ptime) ≤ p ∧ p ≤ 1609545600000000000) ∧
      ([1609459200000000000, 1609480800000000000, 1609502400000000000, 1609524000000000000,
        1609545600000000000] : List Int).Pairwise (fun a b => a < b)) :=
  ⟨bounded_range_positions.1 ⟨2021, 1, 1⟩ ⟨2021, 3, 15⟩ ⟨DateOffset.Type.MonthStart, 1⟩ []
      ⟨[fromDate ⟨2021, 1, 1⟩, fromDate ⟨2021, 2, 1⟩, fromDate ⟨2021, 3, 1⟩], []⟩
      (by decide) rfl,
   bounded_range_positions.2 1609459200000000000 1609545600000000000 (hours 6) []
      ⟨[1609459200000000000, 1609480800000000000, 1609502400000000000, 1609524000000000000,
        1609545600000000000], []⟩ rfl⟩

/-! ## The iteration budget of the bounded loop -/

theorem mkDate_error_ne_fuel {y m d : Int} {e : Error} (h : mkDate y m d = Except.error e) :
    e ≠ Error.out_of_fuel := by
  unfold mkDate at h
  split_ifs at h <;> injection h with h <;> subst h <;> decide

theorem date_itr_next_error_ne_fuel (it : date_itr) (e : Error)
    (h : it.next = Except.error e) : e ≠ Error.out_of_fuel := by
  have hstep : ∀ (o f : Int) (d : date) (e : Error),
      month_functor_step o f d = Except.error e → e ≠ Error.out_of_fuel := by
    intro o f d e h
    unfold month_functor_step at h
    split at h
    · rename_i e1 h1
      unfold date.year_month_day at h1
      split_ifs at h1
      injection h1 with h1
      injection h with h
      subst h1 h
      decide
    · rename_i ymd _
      simp only at h
      generalize (if o = 0 then (if end_of_month_day ymd.year ymd.month = ymd.day then -1
        else ymd.day) else o) = O at h
      split_ifs at h
      · injection h with h; subst h; decide
      · split at h
        · rename_i e1 h1
          injection h with h
          subst h
          exact mkDate_error_ne_fuel h1
        · cases h
      · split at h
        · rename_i e1 h1
          injection h with h
          subst h
          exact mkDate_error_ne_fuel h1
        · cases h
      · split at h
        · rename_i e1 h1
          injection h with h
          subst h
          exact mkDate_error_ne_fuel h1
        · cases h
  unfold date_itr.next at h
  split at h
  · cases h
  · cases h
  · split at h
    · rename_i e1 h1
      injection h with h
      subst h
      exact hstep _ _ _ _ h1
    · cases h
  · split at h
    · rename_i e1 h1
      injection h with h
      subst h
      exact hstep _ _ _ _ h1
    · cases h

/-- The iteration budget of the bounded calendar loop never runs out: when the
loop fails, it fails with an exception of the source. -/
theorem date_range_loop_fuel_suffices (end_ : date) :
    ∀ (fuel : Nat) (it : date_itr) (acc : List Int), it.Inv →
      day_number end_ - day_number it.current + 1 ≤ (fuel : Int) →
      date_range_loop end_ fuel it acc ≠ Except.error Error.out_of_fuel := by
  intro fuel
  induction fuel with
  | zero =>
    intro it acc _ hfuel
    simp only [date_range_loop]
    rw [if_neg (by simp at hfuel; omega)]
    intro h
    cases h
  | succ n ih =>
    intro it acc hinv hfuel
    simp only [date_range_loop]
    split_ifs with hle
    · split
      · rename_i e he
        intro h
        injection h with h
        exact date_itr_next_error_ne_fuel it e he h
      · rename_i it1 hnext
        obtain ⟨hinv1, _, _, hlt, _⟩ := date_itr_next_spec it it1 hinv hnext
        apply ih it1 _ hinv1
        push_cast at hfuel
        omega
    · intro h
      cases h

/-- The bounded calendar range never fails for lack of iteration budget. -/
theorem date_range_date_date_ne_fuel (kind : IteratorKind) (start end_ : date) (freq : Int)
    (tz : CppString) (hs : start.valid) :
    date_range_date_date kind start end_ freq tz ≠ Except.error Error.out_of_fuel := by
  unfold date_range_date_date
  split_ifs with h1 h2
  · intro h; injection h with h; cases h
  · intro h; injection h with h; cases h
  · have := date_range_loop_fuel_suffices end_
      (day_number end_ - day_number start + 1).toNat (date_itr.init kind start freq) []
      (date_itr_init_Inv kind start freq hs (by omega))
      (by simp only [date_itr.init]; omega)
    split
    · rename_i e he
      intro h
      injection h with h
      subst h
      exact this he
    · intro h
      cases h

/-! ## Bounded ranges: the end date, and when a request fails -/

theorem day_range_20210101_20210110_eval (tz : CppString) :
    date_range_date_date_offset ⟨2021, 1, 1⟩ ⟨2021, 1, 10⟩ ⟨DateOffset.Type.Day, 1⟩ tz =
      Except.ok ⟨[fromDate ⟨2021, 1, 1⟩, fromDate ⟨2021, 1, 2⟩, fromDate ⟨2021, 1, 3⟩,
        fromDate ⟨2021, 1, 4⟩, fromDate ⟨2021, 1, 5⟩, fromDate ⟨2021, 1, 6⟩,
        fromDate ⟨2021, 1, 7⟩, fromDate ⟨2021, 1, 8⟩, fromDate ⟨2021, 1, 9⟩,
        fromDate ⟨2021, 1, 10⟩], tz⟩ := by
  simp [date_range_date_date_offset, switchFunction, date_range_tmpl, date_range_date_date,
    date_range_loop, date_itr.next, date_itr.init, addDays, day_number, from_day_number,
    fromDate, toDateTime]

/-- C12 as stated fails: the bounded Day×1 range from 2021-01-01 to 2021-01-10 is
not the nine dates 2021-01-01 ... 2021-01-09; it has ten elements. -/
theorem day_range_20210101_20210110_not_nine :
    date_range_date_date_offset ⟨2021, 1, 1⟩ ⟨2021, 1, 10⟩ ⟨DateOffset.Type.Day, 1⟩ [] ≠
      Except.ok ⟨[fromDate ⟨2021, 1, 1⟩, fromDate ⟨2021, 1, 2⟩, fromDate ⟨2021, 1, 3⟩,
        fromDate ⟨2021, 1, 4⟩, fromDate ⟨2021, 1, 5⟩, fromDate ⟨2021, 1, 6⟩,
        fromDate ⟨2021, 1, 7⟩, fromDate ⟨2021, 1, 8⟩, fromDate ⟨2021, 1, 9⟩], []⟩ := by
  intro h
  rw [day_range_20210101_20210110_eval] at h
  injection h with h
  injection h with h _
  have hl := congrArg List.length h
  simp at hl

/-- C12 (amended): the bounded Day×1 range from 2021-01-01 to 2021-01-10 yields the
ten dates 2021-01-01 through 2021-01-10; the end date is included. -/
theorem day_range_20210101_20210110_ten (tz : CppString) :
    date_range_date_date_offset ⟨2021, 1, 1⟩ ⟨2021, 1, 10⟩ ⟨DateOffset.Type.Day, 1⟩ tz =
      Except.ok ⟨[fromDate ⟨2021, 1, 1⟩, fromDate ⟨2021, 1, 2⟩, fromDate ⟨2021, 1, 3⟩,
        fromDate ⟨2021, 1, 4⟩, fromDate ⟨2021, 1, 5⟩, fromDate ⟨2021, 1, 6⟩,
        fromDate ⟨2021, 1, 7⟩, fromDate ⟨2021, 1, 8⟩, fromDate ⟨2021, 1, 9⟩,
        fromDate ⟨2021, 1, 10⟩], tz⟩ :=
  day_range_20210101_20210110_eval tz

/-- The bounded date-time range fails exactly when start does not precede end or
the duration is zero or negative. -/
theorem date_range_ptime_ptime_error_iff (start end_ freq : Int) (tz : CppString) :
    ((∃ e, date_range_ptime_ptime start end_ freq tz = Except.error e) ↔
      (end_ ≤ start ∨ freq ≤ 0)) ∧
    (¬ (end_ ≤ start ∨ freq ≤ 0) → ∃ arr, date_range_ptime_ptime start end_ freq tz = Except.ok arr) := by
  have hok : ¬ (end_ ≤ start ∨ freq ≤ 0) →
      ∃ arr, date_range_ptime_ptime start end_ freq tz = Except.ok arr := by
    intro hc
    unfold date_range_ptime_ptime
    have h1 : ¬ (end_ ≤ start) := by omega
    have h2 : ¬ (freq < 0 ∨ freq = 0) := by omega
    rw [if_neg h1, if_neg h2]
    have hq : 0 ≤ (end_ - start) / freq := Int.ediv_nonneg (by omega) (by omega)
    obtain ⟨ts, hts⟩ := time_range_loop_ok end_ freq (by omega)
      ((end_ - start) / freq + 1).toNat start [] (by omega)
    rw [hts]
    exact ⟨_, rfl⟩
  refine ⟨⟨?_, ?_⟩, hok⟩
  · rintro ⟨e, he⟩
    by_contra hc
    obtain ⟨arr, harr⟩ := hok hc
    rw [harr] at he
    cases he
  · intro hc
    unfold date_range_ptime_ptime
    by_cases h1 : end_ ≤ start
    · rw [if_pos h1]; exact ⟨_, rfl⟩
    · have h2 : freq < 0 ∨ freq = 0 := by omega
      rw [if_neg h1, if_pos h2]; exact ⟨_, rfl⟩

/-- The bounded calendar range of a Day, WeekStart, MonthStart or YearStart offset
as an instance of the template. -/
theorem switchFunction_endDate_supported (start end_ : date) (freq : DateOffset)
    (tz : CppString)
    (hk : freq.type = DateOffset.Type.Day ∨ freq.type = DateOffset.Type.WeekStart ∨
      freq.type = DateOffset.Type.MonthStart ∨ freq.type = DateOffset.Type.YearStart) :
    ∃ kind, switchFunction start (EndOrPeriod.endDate end_) freq tz =
        date_range_date_date kind start end_ freq.multiplier tz ∧
      ((kind = IteratorKind.month_iterator ∨ kind = IteratorKind.year_iterator) →
        date_itr.stepMonths kind freq.multiplier = freq.stepMonths) := by
  obtain ⟨type, m⟩ := freq
  simp only at hk
  rcases hk with h | h | h | h <;> subst h
  · exact ⟨IteratorKind.day_iterator, rfl, by intro h; simp at h⟩
  · exact ⟨IteratorKind.week_iterator, rfl, by intro h; simp at h⟩
  · exact ⟨IteratorKind.month_iterator, rfl, fun _ => rfl⟩
  · exact ⟨IteratorKind.year_iterator, rfl, fun _ => rfl⟩

/-- C13 as stated fails at the end of the supported date range: the MonthStart×1
request from 9999-12-01 to 9999-12-31 has valid dates, start before end and
multiplier 1, yet it fails (the increment after the first position raises
`bad_year`). -/
theorem bounded_MonthStart_fails_at_9999 :
    date.valid ⟨9999, 12, 1⟩ ∧ date.valid ⟨9999, 12, 31⟩ ∧
    day_number ⟨9999, 12, 1⟩ < day_number ⟨9999, 12, 31⟩ ∧
    date_range_date_date_offset ⟨9999, 12, 1⟩ ⟨9999, 12, 31⟩ ⟨DateOffset.Type.MonthStart, 1⟩ [] =
      Except.error Error.bad_year :=
  ⟨by decide, by decide, by decide, rfl⟩

/-- C13 (amended): a bounded range request fails exactly when its preconditions
are violated. Calendar path, offset kind Day, WeekStart, MonthStart or YearStart,
valid dates, and stepping from the end date's month staying within the
supported years (always so for Day and WeekStart): the request fails if and only
if start >= end or multiplier < 1, and otherwise returns a sequence. Date-time
path: the request fails if and only if start >= end or the duration is zero or
negative, and otherwise returns a sequence. -/
theorem bounded_range_fails_iff :
    (∀ (start end_ : date) (freq : DateOffset) (tz : CppString),
      start.valid → end_.valid →
      (freq.type = DateOffset.Type.Day ∨ freq.type = DateOffset.Type.WeekStart ∨
        freq.type = DateOffset.Type.MonthStart ∨ freq.type = DateOffset.Type.YearStart) →
      end_.year + (end_.month - 1 + freq.stepMonths) / 12 ≤ 9999 →
      ((∃ e, date_range_date_date_offset start end_ freq tz = Except.error e) ↔
        (day_number end_ ≤ day_number start ∨ freq.multiplier < 1)) ∧
      (¬ (day_number end_ ≤ day_number start ∨ freq.multiplier < 1) →
        ∃ arr, date_range_date_date_offset start end_ freq tz = Except.ok arr)) ∧
    (∀ (start end_ : ptime) (freq : time_duration) (tz : CppString),
      ((∃ e, date_range_ptime_ptime start end_ freq tz = Except.error e) ↔
        (end_ ≤ start ∨ freq ≤ 0)) ∧
      (¬ (end_ ≤ start ∨ freq ≤ 0) →
        ∃ arr, date_range_ptime_ptime start end_ freq tz = Except.ok arr)) := by
  constructor
  · intro start end_ freq tz hs he hk hr
    obtain ⟨kind, hsw, hsm⟩ := switchFunction_endDate_supported start end_ freq tz hk
    have hok : ¬ (day_number end_ ≤ day_number start ∨ freq.multiplier < 1) →
        ∃ arr, date_range_date_date_offset start end_ freq tz = Except.ok arr := by
      intro hc
      unfold date_range_date_date_offset
      rw [hsw]
      apply date_range_date_date_ok kind start end_ _ tz hs he (by omega) (by omega)
      intro hkind
      rw [hsm hkind]
      exact hr
    refine ⟨⟨?_, ?_⟩, hok⟩
    · rintro ⟨e, h⟩
      by_contra hc
      obtain ⟨arr, harr⟩ := hok hc
      rw [harr] at h
      cases h
    · intro hc
      unfold date_range_date_date_offset
      rw [hsw]
      exact date_range_date_date_error kind start end_ _ tz hc
  · intro start end_ freq tz
    exact date_range_ptime_ptime_error_iff start end_ freq tz

/-- C13 (amended), on four requests: a month-start range that is returned, one
whose start is not before its end, a date-time range that is returned and one
with a zero duration. -/
theorem bounded_range_fails_iff_witness :
    (∃ arr, date_range_date_date_offset ⟨2021, 1, 1⟩ ⟨2021, 3, 15⟩
      ⟨DateOffset.Type.MonthStart, 1⟩ [] = Except.ok arr) ∧
    (∃ e, date_range_date_date_offset ⟨2021, 3, 15⟩ ⟨2021, 1, 1⟩
      ⟨DateOffset.Type.MonthStart, 1⟩ [] = Except.error e) ∧
    (∃ arr, date_range_ptime_ptime 0 10 3 [] = Except.ok arr) ∧
    (∃ e, date_range_ptime_ptime 0 10 0 [] = Except.error e) :=
  ⟨(bounded_range_fails_iff.1 ⟨2021, 1, 1⟩ ⟨2021, 3, 15⟩ ⟨DateOffset.Type.MonthStart, 1⟩ []
      (by decide) (by decide) (by decide) (by decide)).2 (by decide),
   (bounded_range_fails_iff.1 ⟨2021, 3, 15⟩ ⟨2021, 1, 1⟩ ⟨DateOffset.Type.MonthStart, 1⟩ []
      (by decide) (by decide) (by decide) (by decide)).1.2 (by decide),
   (bounded_range_fails_iff.2 0 10 3 []).2 (by decide),
   (bounded_range_fails_iff.2 0 10 0 []).1.2 (by decide)⟩

/-! ## Counted ranges -/

/-- The counted calendar range of a supported offset (Day, WeekStart, MonthStart,
YearStart, or QuarterStart on a start date that passes the quarter guard, with a
multiplier whose triple fits an `int`) as an instance of the template. -/
theorem switchFunction_period_supported (start : date) (period : Int) (freq : DateOffset)
    (tz : CppString) (hs : start.valid)
    (hk : freq.type = DateOffset.Type.Day ∨ freq.type = DateOffset.Type.WeekStart ∨
      freq.type = DateOffset.Type.MonthStart ∨ freq.type = DateOffset.Type.YearStart ∨
      (freq.type = DateOffset.Type.QuarterStart ∧ start.month / 3 = 0))
    (hm : 1 ≤ freq.multiplier)
    (hq : freq.type = DateOffset.Type.QuarterStart → freq.multiplier * 3 ≤ INT_MAX) :
    ∃ kind f, switchFunction start (EndOrPeriod.period period) freq tz =
        date_range_date_int kind start period f tz ∧
      1 ≤ f ∧
      ((kind = IteratorKind.month_iterator ∨ kind = IteratorKind.year_iterator) →
        date_itr.stepMonths kind f = freq.stepMonths) := by
  obtain ⟨type, m⟩ := freq
  simp only at hk hm hq
  rcases hk with h | h | h | h | ⟨h, hg⟩ <;> subst h
  · exact ⟨IteratorKind.day_iterator, m, rfl, hm, by intro h; simp at h⟩
  · exact ⟨IteratorKind.week_iterator, m, rfl, hm, by intro h; simp at h⟩
  · exact ⟨IteratorKind.month_iterator, m, rfl, hm, fun _ => rfl⟩
  · exact ⟨IteratorKind.year_iterator, m, rfl, hm, fun _ => rfl⟩
  · have hw : int32_wrap (m * 3) = m * 3 :=
      int32_wrap_eq (m * 3) (by unfold INT_MIN; omega) (hq rfl)
    refine ⟨IteratorKind.month_iterator, m * 3, ?_, by omega, fun _ => rfl⟩
    simp only [switchFunction, date_range_tmpl]
    rw [year_month_day_ok hs]
    simp only [hg, ne_eq, not_true_eq_false, if_false, hw]

/-- C14 as stated fails at the end of the supported date range: the counted
MonthStart×1 request from 9999-12-01 with count 1 has a valid start, a supported
kind, multiplier 1 and a non-negative count, yet it produces no sequence (the
increment after the first position raises `bad_year`). -/
theorem counted_MonthStart_fails_at_9999 :
    date.valid ⟨9999, 12, 1⟩ ∧
    date_range_date_int_offset ⟨9999, 12, 1⟩ 1 ⟨DateOffset.Type.MonthStart, 1⟩ [] =
      Except.error Error.bad_year :=
  ⟨by decide, rfl⟩

/-- C14 (amended): for a counted calendar-date range request with a valid start, a
supported offset kind (Day, WeekStart, MonthStart, YearStart, or QuarterStart on
a start date that passes the quarter guard) and multiplier at least 1 and, for
QuarterStart, at most 715827882, so that the factor `3 * multiplier` fits a
32-bit `int`: a negative count fails; a count of at least 0 for which the month
reached after `count` steps is not later than December 9999 (always so for Day
and WeekStart) produces exactly `count` positions, beginning with `start` when
`count > 0`, strictly increasing, and the empty sequence when `count = 0`. -/
theorem counted_calendar_range (start : date) (period : Int) (freq : DateOffset)
    (tz : CppString) (hs : start.valid)
    (hk : freq.type = DateOffset.Type.Day ∨ freq.type = DateOffset.Type.WeekStart ∨
      freq.type = DateOffset.Type.MonthStart ∨ freq.type = DateOffset.Type.YearStart ∨
      (freq.type = DateOffset.Type.QuarterStart ∧ start.month / 3 = 0))
    (hm : 1 ≤ freq.multiplier)
    (hq : freq.type = DateOffset.Type.QuarterStart → freq.multiplier * 3 ≤ INT_MAX) :
    (period < 0 → ∃ e, date_range_date_int_offset start period freq tz = Except.error e) ∧
    (0 ≤ period →
      start.year + (start.month - 1 + period * freq.stepMonths) / 12 ≤ 9999 →
      ∃ arr, date_range_date_int_offset start period freq tz = Except.ok arr ∧
        ∃ ps : List date, arr.values = ps.map fromDate ∧ (ps.length : Int) = period ∧
          (0 < period → ps.head? = some start) ∧
          ps.Pairwise (fun a b => day_number a < day_number b) ∧
          arr.values.Pairwise (fun a b => a < b) ∧
          (period = 0 → arr.values = [])) := by
  obtain ⟨kind, f, hsw, hf1, hsm⟩ :=
    switchFunction_period_supported start period freq tz hs hk hm hq
  unfold date_range_date_int_offset
  rw [hsw]
  constructor
  · intro hneg
    unfold date_range_date_int
    rw [if_pos hneg]
    exact ⟨_, rfl⟩
  · intro hp hr
    obtain ⟨arr, harr⟩ := date_range_date_int_ok kind start period f tz hs hp hf1
      (by intro hkind; rw [hsm hkind]; exact hr)
    obtain ⟨_, _, _, ps, hv, hlen, hhead, hpw⟩ :=
      date_range_date_int_spec kind start period f tz arr hs harr
    refine ⟨arr, harr, ps, hv, hlen, hhead, hpw, ?_, ?_⟩
    · rw [hv, List.pairwise_map]
      exact List.Pairwise.imp (fun hab => fromDate_lt hab) hpw
    · intro h0
      rw [h0] at hlen
      have : ps = [] := List.length_eq_zero.1 (by exact_mod_cast hlen)
      rw [hv, this]
      rfl

/-- C14 (amended), on the quarterly request of three positions from 2021-01-01. -/
theorem counted_calendar_range_witness :
    ∃ arr, date_range_date_int_offset ⟨2021, 1, 1⟩ 3 ⟨DateOffset.Type.QuarterStart, 1⟩ [] =
        Except.ok arr ∧
      ∃ ps : List date, arr.values = ps.map fromDate ∧ (ps.length : Int) = 3 ∧
        ((0 : Int) < 3 → ps.head? = some ⟨2021, 1, 1⟩) ∧
        ps.Pairwise (fun a b => day_number a < day_number b) ∧
        arr.values.Pairwise (fun a b => a < b) ∧
        ((3 : Int) = 0 → arr.values = []) :=
  (counted_calendar_range ⟨2021, 1, 1⟩ 3 ⟨DateOffset.Type.QuarterStart, 1⟩ [] (by decide)
    (by decide) (by decide) (by decide)).2 (by decide) (by decide)

/-- The counted date-time range, in closed form. -/
theorem date_range_ptime_int_eq (start period freq : Int) (tz : CppString) :
    (0 < period → 0 < freq →
      date_range_ptime_int start period freq tz =
        Except.ok ⟨(List.range period.toNat).map (fun k : Nat => start + (k : Int) * freq), tz⟩) ∧
    (period ≤ 0 ∨ freq ≤ 0 → ∃ e, date_range_ptime_int start period freq tz = Except.error e) := by
  constructor
  · intro hp hf
    unfold date_range_ptime_int
    have h1 : ¬ (period ≤ 0) := by omega
    have h2 : ¬ (freq < 0 ∨ freq = 0) := by omega
    rw [if_neg h1, if_neg h2, generate_n_time_eq]
    rfl
  · intro hc
    unfold date_range_ptime_int
    by_cases h1 : period ≤ 0
    · rw [if_pos h1]; exact ⟨_, rfl⟩
    · have h2 : freq < 0 ∨ freq = 0 := by omega
      rw [if_neg h1, if_pos h2]; exact ⟨_, rfl⟩

/-- C15: for every date-time start, count > 0 and positive duration `f`, the
counted date-time range has exactly `count` elements, the `k`-th of which
(from 0) is `start + k·f`, and carries the timezone label; a count of 0 or less,
or a zero or negative duration, fails. -/
theorem counted_datetime_range (start : ptime) (period : Int) (freq : time_duration)
    (tz : CppString) :
    (0 < period → 0 < freq →
      ∃ arr, date_range_ptime_int start period freq tz = Except.ok arr ∧
        (arr.values.length : Int) = period ∧
        (∀ k : Nat, (k : Int) < period →
          arr.values.get? k = some (fromPTime (start + (k : Int) * freq)))) ∧
    (period ≤ 0 ∨ freq ≤ 0 → ∃ e, date_range_ptime_int start period freq tz = Except.error e) := by
  refine ⟨?_, (date_range_ptime_int_eq start period freq tz).2⟩
  intro hp hf
  refine ⟨_, (date_range_ptime_int_eq start period freq tz).1 hp hf, ?_, ?_⟩
  · simp only [List.length_map, List.length_range]
    omega
  · intro k hk
    have hk2 : k < period.toNat := by omega
    simp [List.getElem?_range hk2, fromPTime]

/-- C15, on the request the claim names: from 2021-01-01T00:00:00 (1609459200 s
after the epoch), count 4, 15 minutes: 00:00, 00:15, 00:30, 00:45. -/
theorem counted_datetime_range_witness :
    ∃ arr, date_range_ptime_int 1609459200000000000 4 (minutes 15) [] = Except.ok arr ∧
      (arr.values.length : Int) = 4 ∧
      (∀ k : Nat, (k : Int) < 4 →
        arr.values.get? k =
          some (fromPTime (1609459200000000000 + (k : Int) * minutes 15))) :=
  (counted_datetime_range 1609459200000000000 4 (minutes 15) []).1 (by decide) (by decide)

/-- C16: `range(5, 8)` is `[0, 1, 2]`, not `[5, 6, 7]`: the loop appends its counter
`i`, not `start + i`. The length, 3, is `end - start`. Likewise `range(-2, 1)`. -/
theorem range_appends_counter :
    range 5 8 = [0, 1, 2] ∧ range 5 8 ≠ [5, 6, 7] ∧ range (-2) 1 = [0, 1, 2] ∧
      range 0 3 = [0, 1, 2] := by
  refine ⟨by decide, by decide, by decide, by decide⟩

/-! ## The two resolvers, multipliers below 1, timezone labels -/

theorem FromString_some_unit (code u : CppString) (n : Int) (off : DateOffset)
    (hs : splitTimeSpan code = Except.ok (u, n))
    (h : DateOffset.FromString code = Except.ok (some off)) :
    u = "D".toList ∨ u = "WS".toList ∨ u = "W".toList ∨ u = "MS".toList ∨ u = "M".toList ∨
      u = "Y".toList ∨ u = "YS".toList ∨ u = "Q".toList ∨ u = "QS".toList := by
  unfold DateOffset.FromString at h
  rw [hs] at h
  simp only at h
  split_ifs at h with h1 h2 h3 h4 h5 h6 h7 h8 h9
  · exact Or.inl h1
  · exact Or.inr (Or.inl h2)
  · exact Or.inr (Or.inr (Or.inl h3))
  · exact Or.inr (Or.inr (Or.inr (Or.inl h4)))
  · exact Or.inr (Or.inr (Or.inr (Or.inr (Or.inl h5))))
  · exact Or.inr (Or.inr (Or.inr (Or.inr (Or.inr (Or.inl h6)))))
  · exact Or.inr (Or.inr (Or.inr (Or.inr (Or.inr (Or.inr (Or.inl h7))))))
  · exact Or.inr (Or.inr (Or.inr (Or.inr (Or.inr (Or.inr (Or.inr (Or.inl h8)))))))
  · exact Or.inr (Or.inr (Or.inr (Or.inr (Or.inr (Or.inr (Or.inr (Or.inr h9)))))))
  · cases h

/-- C17: the calendar-offset resolver and the sub-day duration resolver are
mutually exclusive. (1) Whenever `DateOffset::FromString` yields an offset for a
code, `duration_from_string` fails on the unit of that code, for every
multiplier. (2) `duration_from_string` fails on each calendar code D, WS, W, MS,
M, Y, YS, Q, QS. (3) It succeeds exactly on H, hrs, T, min, S, L, ms, U, us, N,
ns. (4) On these it returns the multiplier times the unit length, in
nanoseconds: an hour for H and hrs, a minute for T and min, a second for S, a
millisecond for L and ms, a microsecond for U and us, a nanosecond for N and ns. -/
theorem resolvers_mutually_exclusive :
    (∀ (code u : CppString) (n m : Int) (off : DateOffset),
      splitTimeSpan code = Except.ok (u, n) →
      DateOffset.FromString code = Except.ok (some off) →
      ∃ e, duration_from_string u m = Except.error e) ∧
    (∀ (u : CppString) (m : Int),
      u ∈ ["D".toList, "WS".toList, "W".toList, "MS".toList, "M".toList, "Y".toList,
        "YS".toList, "Q".toList, "QS".toList] →
      ∃ e, duration_from_string u m = Except.error e) ∧
    (∀ (u : CppString) (m : Int),
      (∃ d, duration_from_string u m = Except.ok d) ↔
        u ∈ ["H".toList, "hrs".toList, "T".toList, "min".toList, "S".toList, "L".toList,
          "ms".toList, "U".toList, "us".toList, "N".toList, "ns".toList]) ∧
    (∀ m : Int,
      duration_from_string "H".toList m = Except.ok (m * 3600000000000) ∧
      duration_from_string "hrs".toList m = Except.ok (m * 3600000000000) ∧
      duration_from_string "T".toList m = Except.ok (m * 60000000000) ∧
      duration_from_string "min".toList m = Except.ok (m * 60000000000) ∧
      duration_from_string "S".toList m = Except.ok (m * 1000000000) ∧
      duration_from_string "L".toList m = Except.ok (m * 1000000) ∧
      duration_from_string "ms".toList m = Except.ok (m * 1000000) ∧
      duration_from_string "U".toList m = Except.ok (m * 1000) ∧
      duration_from_string "us".toList m = Except.ok (m * 1000) ∧
      duration_from_string "N".toList m = Except.ok m ∧
      duration_from_string "ns".toList m = Except.ok m) := by
  have hcal : ∀ (u : CppString) (m : Int),
      (u = "D".toList ∨ u = "WS".toList ∨ u = "W".toList ∨ u = "MS".toList ∨ u = "M".toList ∨
        u = "Y".toList ∨ u = "YS".toList ∨ u = "Q".toList ∨ u = "QS".toList) →
      ∃ e, duration_from_string u m = Except.error e := by
    intro u m hu
    rcases hu with h | h | h | h | h | h | h | h | h <;> subst h <;> exact ⟨_, rfl⟩
  refine ⟨?_, ?_, ?_, ?_⟩
  · intro code u n m off hs h
    exact hcal u m (FromString_some_unit code u n off hs h)
  · intro u m hu
    apply hcal u m
    simpa using hu
  · intro u m
    constructor
    · rintro ⟨d, hd⟩
      unfold duration_from_string at hd
      simp only [List.mem_cons, List.mem_singleton, List.not_mem_nil, or_false]
      split_ifs at hd with h1 h2 h3 h4 h5 h6
      · rcases h1 with h | h <;> simp [h]
      · rcases h2 with h | h <;> simp [h]
      · simp [h3]
      · rcases h4 with h | h <;> simp [h]
      · rcases h5 with h | h <;> simp [h]
      · rcases h6 with h | h <;> simp [h]
    · intro hu
      simp only [List.mem_cons, List.mem_singleton, List.not_mem_nil, or_false] at hu
      rcases hu with h | h | h | h | h | h | h | h | h | h | h <;> subst h <;> exact ⟨_, rfl⟩
  · intro m
    exact ⟨rfl, rfl, rfl, rfl, rfl, rfl, rfl, rfl, rfl, rfl, rfl⟩

/-- C17, on the codes "3M" and "15T": the first resolves as a calendar offset
and has no duration; the second has a duration of 15 minutes and no offset. -/
theorem resolvers_mutually_exclusive_witness :
    (∃ e, duration_from_string "M".toList 3 = Except.error e) ∧
    (∃ e, duration_from_string "QS".toList 1 = Except.error e) ∧
    ((∃ d, duration_from_string "T".toList 15 = Except.ok d) ↔
      "T".toList ∈ ["H".toList, "hrs".toList, "T".toList, "min".toList, "S".toList,
        "L".toList, "ms".toList, "U".toList, "us".toList, "N".toList, "ns".toList]) ∧
    duration_from_string "T".toList 15 = Except.ok (15 * 60000000000) ∧
    DateOffset.FromString "15T".toList = Except.ok none :=
  ⟨resolvers_mutually_exclusive.1 "3M".toList "M".toList 3 3
      ⟨DateOffset.Type.MonthEnd, 3⟩ rfl rfl,
   resolvers_mutually_exclusive.2.1 "QS".toList 1 (by decide),
   resolvers_mutually_exclusive.2.2.1 "T".toList 15,
   (resolvers_mutually_exclusive.2.2.2 15).2.2.1,
   rfl⟩

/-- Every calendar date range requested with a multiplier below 1 fails, provided
that for QuarterStart the factor `3 * multiplier` fits a 32-bit `int`. -/
theorem switchFunction_multiplier_lt_one (start : date) (eop : EndOrPeriod)
    (freq : DateOffset) (tz : CppString) (hm : freq.multiplier < 1)
    (hq : freq.type = DateOffset.Type.QuarterStart → INT_MIN ≤ freq.multiplier * 3) :
    ∃ e, switchFunction start eop freq tz = Except.error e := by
  have htmpl : ∀ (kind : IteratorKind) (f : Int), f < 1 →
      ∃ e, date_range_tmpl kind start eop f tz = Except.error e := by
    intro kind f hf
    cases eop with
    | endDate end_ =>
      exact date_range_date_date_error kind start end_ f tz (Or.inr hf)
    | period n =>
      simp only [date_range_tmpl, date_range_date_int]
      split_ifs with h1
      · exact ⟨_, rfl⟩
      · exact ⟨_, rfl⟩
  obtain ⟨type, m⟩ := freq
  simp only at hm hq
  cases type <;> simp only [switchFunction]
  case Day => exact htmpl _ _ hm
  case MonthStart => exact htmpl _ _ hm
  case WeekStart => exact htmpl _ _ hm
  case YearStart => exact htmpl _ _ hm
  case QuarterStart =>
    have hw : int32_wrap (m * 3) = m * 3 :=
      int32_wrap_eq (m * 3) (hq rfl) (by unfold INT_MAX; omega)
    split
    · exact ⟨_, rfl⟩
    · split_ifs
      · exact ⟨_, rfl⟩
      · rw [hw]
        exact htmpl _ _ (by omega)
  all_goals exact ⟨_, rfl⟩

/-- The QuarterStart factor at multipliers whose triple does not fit a 32-bit `int`:
715827883 gives the factor -2147483647, which the template rejects, and
-1431655765 gives the factor 1, which the template accepts. -/
theorem switchFunction_QuarterStart_factor_wraps :
    int32_wrap (715827883 * 3) = -2147483647 ∧
    int32_wrap (-1431655765 * 3) = 1 ∧
    date_range_date_int_offset ⟨2021, 1, 1⟩ 0 ⟨DateOffset.Type.QuarterStart, 715827883⟩ [] =
      Except.error (Error.runtime_error "FREQ must be >= 1") ∧
    date_range_date_int_offset ⟨2021, 1, 1⟩ 3 ⟨DateOffset.Type.QuarterStart, -1431655765⟩ [] =
      Except.ok ⟨[fromDate ⟨2021, 1, 1⟩, fromDate ⟨2021, 2, 1⟩, fromDate ⟨2021, 3, 1⟩], []⟩ := by
  refine ⟨by decide, by decide, rfl, rfl⟩

/-- C18 as stated fails: on the codes "0D", "00M" and "-3D", whose numeric prefix
denotes 0, 0 and -3, `DateOffset::FromString` does not fail; it yields an offset
with that multiplier. -/
theorem FromString_accepts_multiplier_below_one :
    DateOffset.FromString "0D".toList = Except.ok (some ⟨DateOffset.Type.Day, 0⟩) ∧
    DateOffset.FromString "00M".toList = Except.ok (some ⟨DateOffset.Type.MonthEnd, 0⟩) ∧
    DateOffset.FromString "-3D".toList = Except.ok (some ⟨DateOffset.Type.Day, -3⟩) :=
  ⟨rfl, rfl, rfl⟩

/-- C18 (amended): a calendar offset constructed from a frequency string carries
the multiplier written in the code, also when that is less than 1: for a
non-empty digit run of value 0 followed by one of the units D, WS, W, MS, M, Y,
YS, Q, QS, `DateOffset::FromString` yields an offset with multiplier 0. The
requirement multiplier >= 1 is enforced by the calendar range generator, not at
construction: every calendar date range, bounded or counted, requested with an
offset whose multiplier is below 1 (and, for QuarterStart, not below -715827882,
so that the factor `3 * multiplier` fits a 32-bit `int`) fails. -/
theorem multiplier_checked_at_range_generation :
    (∀ (ds u : List Char), (∀ c ∈ ds, c.isDigit = true) → ds ≠ [] →
      (Nat.ofDigits 10 (ds.reverse.map (fun c => c.toNat - 48)) : Nat) = 0 →
      u ∈ ["D".toList, "WS".toList, "W".toList, "MS".toList, "M".toList, "Y".toList,
        "YS".toList, "Q".toList, "QS".toList] →
      ∃ k, DateOffset.FromString (ds ++ u) = Except.ok (some ⟨k, 0⟩)) ∧
    (∀ (start end_ : date) (freq : DateOffset) (tz : CppString), freq.multiplier < 1 →
      (freq.type = DateOffset.Type.QuarterStart → INT_MIN ≤ freq.multiplier * 3) →
      ∃ e, date_range_date_date_offset start end_ freq tz = Except.error e) ∧
    (∀ (start : date) (period : Int) (freq : DateOffset) (tz : CppString),
      freq.multiplier < 1 →
      (freq.type = DateOffset.Type.QuarterStart → INT_MIN ≤ freq.multiplier * 3) →
      ∃ e, date_range_date_int_offset start period freq tz = Except.error e) := by
  refine ⟨?_, ?_, ?_⟩
  · intro ds u hd hne hval hu
    rw [← decimalValue_eq_ofDigits] at hval
    have hl : ∀ c ∈ u, c.isAlpha = true := by
      simp only [List.mem_cons, List.mem_singleton, List.not_mem_nil, or_false] at hu
      rcases hu with h | h | h | h | h | h | h | h | h <;> subst h <;> decide
    have hune : u ≠ [] := by
      simp only [List.mem_cons, List.mem_singleton, List.not_mem_nil, or_false] at hu
      rcases hu with h | h | h | h | h | h | h | h | h <;> subst h <;> decide
    have hs := splitTimeSpan_wf ds u hd hl hune (by rw [hval]; decide)
    rw [if_neg hne, hval] at hs
    unfold DateOffset.FromString
    rw [hs]
    simp only [List.mem_cons, List.mem_singleton, List.not_mem_nil, or_false] at hu
    rcases hu with h | h | h | h | h | h | h | h | h <;> subst h <;> exact ⟨_, rfl⟩
  · intro start end_ freq tz hm hq
    exact switchFunction_multiplier_lt_one start _ freq tz hm hq
  · intro start period freq tz hm hq
    exact switchFunction_multiplier_lt_one start _ freq tz hm hq

/-- C18 (amended), on the code "0D", on Day ranges with multiplier 0 and on a
QuarterStart range with multiplier -2. -/
theorem multiplier_checked_at_range_generation_witness :
    (∃ k, DateOffset.FromString "0D".toList = Except.ok (some ⟨k, 0⟩)) ∧
    (∃ e, date_range_date_date_offset ⟨2021, 1, 1⟩ ⟨2021, 1, 10⟩ ⟨DateOffset.Type.Day, 0⟩ [] =
      Except.error e) ∧
    (∃ e, date_range_date_int_offset ⟨2021, 1, 1⟩ 3 ⟨DateOffset.Type.Day, 0⟩ [] =
      Except.error e) ∧
    (∃ e, date_range_date_int_offset ⟨2021, 1, 1⟩ 3 ⟨DateOffset.Type.QuarterStart, -2⟩ [] =
      Except.error e) :=
  ⟨multiplier_checked_at_range_generation.1 ['0'] ['D'] (by decide) (by decide) (by decide)
      (by decide),
   multiplier_checked_at_range_generation.2.1 ⟨2021, 1, 1⟩ ⟨2021, 1, 10⟩
      ⟨DateOffset.Type.Day, 0⟩ [] (by decide) (by decide),
   multiplier_checked_at_range_generation.2.2 ⟨2021, 1, 1⟩ 3 ⟨DateOffset.Type.Day, 0⟩ []
      (by decide) (by decide),
   multiplier_checked_at_range_generation.2.2 ⟨2021, 1, 1⟩ 3
      ⟨DateOffset.Type.QuarterStart, -2⟩ [] (by decide) (by decide)⟩

/-- C19: the counted calendar range does not carry the caller's timezone label:
its result is the same for any two labels, so a request with label "UTC"
returns the default (empty) label; the three other call shapes return the label
they were given. Checked on Day×1 from 2021-01-01, three positions or up to
2021-01-03, and on 6-hour steps. -/
theorem counted_calendar_range_drops_timezone :
    (∀ (start : date) (period : Int) (freq : DateOffset) (tz1 tz2 : CppString),
      date_range_date_int_offset start period freq tz1 =
        date_range_date_int_offset start period freq tz2) ∧
    date_range_date_int_offset ⟨2021, 1, 1⟩ 3 ⟨DateOffset.Type.MonthStart, 1⟩ "UTC".toList =
      Except.ok ⟨[fromDate ⟨2021, 1, 1⟩, fromDate ⟨2021, 2, 1⟩, fromDate ⟨2021, 3, 1⟩], []⟩ ∧
    date_range_date_date_offset ⟨2021, 1, 1⟩ ⟨2021, 3, 1⟩ ⟨DateOffset.Type.MonthStart, 1⟩
        "UTC".toList =
      Except.ok ⟨[fromDate ⟨2021, 1, 1⟩, fromDate ⟨2021, 2, 1⟩, fromDate ⟨2021, 3, 1⟩],
        "UTC".toList⟩ ∧
    date_range_ptime_int 0 2 (hours 6) "UTC".toList =
      Except.ok ⟨[0, 21600000000000], "UTC".toList⟩ ∧
    date_range_ptime_ptime 0 21600000000000 (hours 6) "UTC".toList =
      Except.ok ⟨[0, 21600000000000], "UTC".toList⟩ := by
  refine ⟨?_, rfl, rfl, rfl, rfl⟩
  intro start period freq tz1 tz2
  obtain ⟨type, m⟩ := freq
  cases type <;> rfl

/-! ## Stepping is additive in the multiplier -/

/-- What `d + months(f)` returns, when it returns. -/
theorem addMonths_spec (d x : date) (f : Int) (hv : d.valid) (hf : 0 ≤ f)
    (h : addMonths d f = Except.ok x) :
    x.valid ∧ x.year = d.year + (d.month - 1 + f) / 12 ∧
      x.month = (d.month - 1 + f) % 12 + 1 := by
  unfold addMonths at h
  split at h
  · cases h
  · rename_i r hstep
    injection h with h
    subst h
    obtain ⟨o, x⟩ := r
    obtain ⟨h1, h2, h3, _⟩ := month_functor_step_spec 0 f d hv hf o x hstep
    exact ⟨h1, h2, h3⟩

/-- The month-based stepping kinds in closed form: the step returns exactly when
the target month is not past December 9999, and then the result depends only on
the target year `Y` and month `M`. -/
theorem add_month_kinds_iff (d r : date) (n : Int) (hv : d.valid) (hn : 0 ≤ n) :
    (DateOffset.add d ⟨DateOffset.Type.MonthEnd, n⟩ = Except.ok r ↔
      d.year + (d.month - 1 + n) / 12 ≤ 9999 ∧
      r = ⟨d.year + (d.month - 1 + n) / 12, (d.month - 1 + n) % 12 + 1,
        end_of_month_day (d.year + (d.month - 1 + n) / 12) ((d.month - 1 + n) % 12 + 1)⟩) ∧
    (DateOffset.add d ⟨DateOffset.Type.MonthStart, n⟩ = Except.ok r ↔
      d.year + (d.month - 1 + n) / 12 ≤ 9999 ∧
      r = ⟨d.year + (d.month - 1 + n) / 12, (d.month - 1 + n) % 12 + 1, 1⟩) ∧
    (DateOffset.add d ⟨DateOffset.Type.QuarterStart, n⟩ = Except.ok r ↔
      d.year + (d.month - 1 + 3 * n) / 12 ≤ 9999 ∧
      r = ⟨d.year + (d.month - 1 + 3 * n) / 12,
        ((d.month - 1 + 3 * n) % 12 + 1 - 1) / 3 * 3 + 1, 1⟩) ∧
    (DateOffset.add d ⟨DateOffset.Type.YearEnd, n⟩ = Except.ok r ↔
      d.year + (d.month - 1 + n * 12) / 12 ≤ 9999 ∧
      r = ⟨d.year + (d.month - 1 + n * 12) / 12, 12, 31⟩) ∧
    (DateOffset.add d ⟨DateOffset.Type.YearStart, n⟩ = Except.ok r ↔
      d.year + (d.month - 1 + n * 12) / 12 ≤ 9999 ∧
      r = ⟨d.year + (d.month - 1 + n * 12) / 12, 1, 1⟩) := by
  have key : ∀ (f : Int) (g : Int → Int → Int × Int), 0 ≤ f →
      (∀ y m, 1400 ≤ y → y ≤ 9999 → 1 ≤ m → m ≤ 12 →
        date.valid ⟨y, (g y m).1, (g y m).2⟩) →
      ((match addMonths d f with
        | Except.error e => Except.error e
        | Except.ok x =>
          match x.year_month_day with
          | Except.error e => Except.error e
          | Except.ok ymd => mkDate ymd.year (g ymd.year ymd.month).1 (g ymd.year ymd.month).2) =
          Except.ok r ↔
        d.year + (d.month - 1 + f) / 12 ≤ 9999 ∧
        r = ⟨d.year + (d.month - 1 + f) / 12,
          (g (d.year + (d.month - 1 + f) / 12) ((d.month - 1 + f) % 12 + 1)).1,
          (g (d.year + (d.month - 1 + f) / 12) ((d.month - 1 + f) % 12 + 1)).2⟩) := by
    intro f g hf hg
    constructor
    · intro h
      split at h
      · cases h
      · rename_i x hx
        obtain ⟨hxv, hxy, hxm⟩ := addMonths_spec d x f hv hf hx
        rw [year_month_day_ok hxv] at h
        simp only at h
        obtain ⟨hr, _⟩ := mkDate_spec h
        obtain ⟨⟨_, hle⟩, _⟩ := hxv
        rw [hxy, hxm] at hr
        exact ⟨by omega, hr⟩
    · rintro ⟨hr, rfl⟩
      obtain ⟨day, hadd, hval⟩ := addMonths_ok d f hv hf hr
      rw [hadd]
      simp only
      rw [year_month_day_ok hval]
      simp only
      obtain ⟨⟨h1, h2⟩, ⟨h3, h4⟩, _⟩ := hval
      simp only at h1 h2 h3 h4
      exact mkDate_ok (hg _ _ h1 h2 h3 h4)
  have hvalid : ∀ (y m dd : Int), 1400 ≤ y → y ≤ 9999 → 1 ≤ m → m ≤ 12 → 1 ≤ dd →
      dd ≤ end_of_month_day y m → date.valid ⟨y, m, dd⟩ :=
    fun y m dd a b c e f g => ⟨⟨a, b⟩, ⟨c, e⟩, f, g⟩
  refine ⟨?_, ?_, ?_, ?_, ?_⟩
  · have := key n (fun y m => (m, end_of_month_day y m)) hn (by
      intro y m h1 h2 h3 h4
      have hb := end_of_month_day_bounds y m
      exact hvalid _ _ _ h1 h2 h3 h4 (by simp only; omega) (by simp only; omega))
    simpa only [DateOffset.add, date.end_of_month] using this
  · have := key n (fun _ m => (m, 1)) hn (by
      intro y m h1 h2 h3 h4
      have hb := end_of_month_day_bounds y m
      exact hvalid _ _ _ h1 h2 h3 h4 (by simp only; omega) (by simp only; omega))
    simpa only [DateOffset.add] using this
  · have := key (3 * n) (fun _ m => ((m - 1) / 3 * 3 + 1, 1)) (by omega) (by
      intro y m h1 h2 h3 h4
      have hb := end_of_month_day_bounds y ((m - 1) / 3 * 3 + 1)
      exact hvalid _ _ _ h1 h2 (by simp only; omega) (by simp only; omega) (by simp only; omega)
        (by simp only; omega))
    simpa only [DateOffset.add] using this
  · have := key (n * 12) (fun _ _ => (12, 31)) (by omega) (by
      intro y m h1 h2 h3 h4
      exact hvalid _ _ _ h1 h2 (by simp only; omega) (by simp only; omega)
        (by simp only; omega) (by simp [end_of_month_day]))
    simpa only [DateOffset.add, addYears] using this
  · have := key (n * 12) (fun _ _ => (1, 1)) (by omega) (by
      intro y m h1 h2 h3 h4
      exact hvalid _ _ _ h1 h2 (by simp only; omega) (by simp only; omega)
        (by simp only; omega) (by simp [end_of_month_day]))
    simpa only [DateOffset.add, addYears] using this


/-- The day before the first day of a month (other than January) is the last day
of the preceding month of the same year. -/
theorem addDays_first_of_month_minus_one (y q : Int) (hy : 1400 ≤ y ∧ y ≤ 9999)
    (hq : 2 ≤ q ∧ q ≤ 12) :
    addDays ⟨y, q, 1⟩ (-1) = ⟨y, q - 1, end_of_month_day y (q - 1)⟩ := by
  have hstep := first_of_month_step y (q - 1) (by omega)
  have h1 : y + (q - 1) / 12 = y := by omega
  have h2 : (q - 1) % 12 + 1 = q := by omega
  rw [h1, h2] at hstep
  have hday := day_number_day y (q - 1) (end_of_month_day y (q - 1))
  have hb := end_of_month_day_bounds y (q - 1)
  have hval : date.valid ⟨y, q - 1, end_of_month_day y (q - 1)⟩ := by
    refine ⟨⟨?_, ?_⟩, ⟨?_, ?_⟩, ?_, ?_⟩ <;> simp only <;> omega
  unfold addDays
  have e : day_number ⟨y, q, 1⟩ + -1 = day_number ⟨y, q - 1, end_of_month_day y (q - 1)⟩ := by
    omega
  rw [e]
  exact from_day_number_day_number _ hval

/-- The QuarterEnd step in closed form: it returns exactly when the target month is
not past December 9999, and then yields the last day of the second month of the
target month's quarter. -/
theorem add_QuarterEnd_iff (d r : date) (n : Int) (hv : d.valid) (hn : 0 ≤ n) :
    DateOffset.add d ⟨DateOffset.Type.QuarterEnd, n⟩ = Except.ok r ↔
      d.year + (d.month - 1 + 3 * n) / 12 ≤ 9999 ∧
      r = ⟨d.year + (d.month - 1 + 3 * n) / 12,
        ((d.month - 1 + 3 * n) % 12 + 1 - 1) / 3 * 3 + 2,
        end_of_month_day (d.year + (d.month - 1 + 3 * n) / 12)
          (((d.month - 1 + 3 * n) % 12 + 1 - 1) / 3 * 3 + 2)⟩ := by
  have hsnap : ∀ x : date, x.valid →
      date.valid ⟨x.year, (x.month - 1) / 3 * 3 + 3, 1⟩ ∧
      addDays ⟨x.year, (x.month - 1) / 3 * 3 + 3, 1⟩ (-1) =
        ⟨x.year, (x.month - 1) / 3 * 3 + 2,
          end_of_month_day x.year ((x.month - 1) / 3 * 3 + 2)⟩ := by
    intro x hx
    obtain ⟨⟨h1, h2⟩, ⟨h3, h4⟩, _⟩ := hx
    have hb := end_of_month_day_bounds x.year ((x.month - 1) / 3 * 3 + 3)
    have hq : date.valid ⟨x.year, (x.month - 1) / 3 * 3 + 3, 1⟩ := by
      refine ⟨⟨?_, ?_⟩, ⟨?_, ?_⟩, ?_, ?_⟩ <;> simp only <;> omega
    refine ⟨hq, ?_⟩
    rw [addDays_first_of_month_minus_one _ _ ⟨h1, h2⟩ (by omega)]
    have e : (x.month - 1) / 3 * 3 + 3 - 1 = (x.month - 1) / 3 * 3 + 2 := by ring
    rw [e]
  simp only [DateOffset.add]
  constructor
  · intro h
    split at h
    · cases h
    · rename_i x hx
      obtain ⟨hxv, hxy, hxm⟩ := addMonths_spec d x (3 * n) hv (by omega) hx
      obtain ⟨hq, hadd⟩ := hsnap x hxv
      rw [year_month_day_ok hxv] at h
      simp only [mkDate_ok hq, hadd] at h
      injection h with h
      obtain ⟨⟨_, hle⟩, _⟩ := hxv
      rw [hxy, hxm] at h
      exact ⟨by omega, h.symm⟩
  · rintro ⟨hr, rfl⟩
    obtain ⟨day, hadd, hval⟩ := addMonths_ok d (3 * n) hv (by omega) hr
    obtain ⟨hq, hadd2⟩ := hsnap _ hval
    rw [hadd]
    simp only
    rw [year_month_day_ok hval]
    simp only [mkDate_ok hq, hadd2]

theorem addDays_addDays (d : date) (a b : Int) (h : 0 ≤ day_number d + a) :
    addDays (addDays d a) b = addDays d (a + b) := by
  unfold addDays
  rw [day_number_from_day_number _ h]
  congr 1
  ring


/-- C20: stepping composes additively in the multiplier. For every valid date `d`,
every offset kind `k` (Day, WeekStart, WeekEnd, MonthStart, MonthEnd,
QuarterStart, QuarterEnd, YearStart, YearEnd) and all multipliers `a, b >= 1`
such that the step by `a` returns a date `r1` of the supported range and the
step by `b` from `r1` returns a date `r2`, the single step by `a + b` from `d`
returns the same date `r2`. -/
theorem add_additive (d r1 r2 : date) (k : DateOffset.Type) (a b : Int)
    (hv : d.valid) (ha : 1 ≤ a) (hb : 1 ≤ b)
    (h1 : DateOffset.add d ⟨k, a⟩ = Except.ok r1) (hr1 : r1.valid)
    (h2 : DateOffset.add r1 ⟨k, b⟩ = Except.ok r2) :
    DateOffset.add d ⟨k, a + b⟩ = Except.ok r2 := by
  have hv0 := hv
  obtain ⟨⟨hy1, hy2⟩, ⟨hm1, hm2⟩, _⟩ := hv0
  have hdn := day_number_nonneg_of_valid d hv
  cases k with
  | Day =>
    simp only [DateOffset.add] at h1 h2 ⊢
    injection h1 with h1
    injection h2 with h2
    rw [← h2, ← h1, addDays_addDays d a b (by omega)]
  | WeekStart =>
    simp only [DateOffset.add] at h1 h2 ⊢
    injection h1 with h1
    injection h2 with h2
    rw [← h2, ← h1, addDays_addDays d (a * 7) (b * 7) (by omega)]
    congr 2
    ring
  | WeekEnd =>
    simp only [DateOffset.add] at h1 h2 ⊢
    injection h1 with h1
    injection h2 with h2
    rw [← h2, ← h1, addDays_addDays d (a * 7) (b * 7) (by omega)]
    congr 2
    ring
  | MonthEnd =>
    obtain ⟨hq1, e1⟩ := ((add_month_kinds_iff d r1 a hv (by omega)).1).1 h1
    obtain ⟨hq2, e2⟩ := ((add_month_kinds_iff r1 r2 b hr1 (by omega)).1).1 h2
    refine ((add_month_kinds_iff d r2 (a + b) hv (by omega)).1).2 ?_
    subst e1
    simp only at hq2 e2
    have ey : d.year + (d.month - 1 + a) / 12 + ((d.month - 1 + a) % 12 + 1 - 1 + b) / 12 =
        d.year + (d.month - 1 + (a + b)) / 12 := by omega
    have em : ((d.month - 1 + a) % 12 + 1 - 1 + b) % 12 + 1 = (d.month - 1 + (a + b)) % 12 + 1 := by
      omega
    rw [ey, em] at e2
    rw [ey] at hq2
    exact ⟨hq2, e2⟩
  | MonthStart =>
    obtain ⟨hq1, e1⟩ := ((add_month_kinds_iff d r1 a hv (by omega)).2.1).1 h1
    obtain ⟨hq2, e2⟩ := ((add_month_kinds_iff r1 r2 b hr1 (by omega)).2.1).1 h2
    refine ((add_month_kinds_iff d r2 (a + b) hv (by omega)).2.1).2 ?_
    subst e1
    simp only at hq2 e2
    have ey : d.year + (d.month - 1 + a) / 12 + ((d.month - 1 + a) % 12 + 1 - 1 + b) / 12 =
        d.year + (d.month - 1 + (a + b)) / 12 := by omega
    have em : ((d.month - 1 + a) % 12 + 1 - 1 + b) % 12 + 1 = (d.month - 1 + (a + b)) % 12 + 1 := by
      omega
    rw [ey, em] at e2
    rw [ey] at hq2
    exact ⟨hq2, e2⟩
  | QuarterStart =>
    obtain ⟨hq1, e1⟩ := ((add_month_kinds_iff d r1 a hv (by omega)).2.2.1).1 h1
    obtain ⟨hq2, e2⟩ := ((add_month_kinds_iff r1 r2 b hr1 (by omega)).2.2.1).1 h2
    refine ((add_month_kinds_iff d r2 (a + b) hv (by omega)).2.2.1).2 ?_
    subst e1
    simp only at hq2 e2
    have ey : d.year + (d.month - 1 + 3 * a) / 12 +
        (((d.month - 1 + 3 * a) % 12 + 1 - 1) / 3 * 3 + 1 - 1 + 3 * b) / 12 =
        d.year + (d.month - 1 + 3 * (a + b)) / 12 := by omega
    have em : ((((d.month - 1 + 3 * a) % 12 + 1 - 1) / 3 * 3 + 1 - 1 + 3 * b) % 12 + 1 - 1) / 3 * 3
        + 1 = ((d.month - 1 + 3 * (a + b)) % 12 + 1 - 1) / 3 * 3 + 1 := by omega
    rw [ey, em] at e2
    rw [ey] at hq2
    exact ⟨hq2, e2⟩
  | QuarterEnd =>
    obtain ⟨hq1, e1⟩ := (add_QuarterEnd_iff d r1 a hv (by omega)).1 h1
    obtain ⟨hq2, e2⟩ := (add_QuarterEnd_iff r1 r2 b hr1 (by omega)).1 h2
    refine (add_QuarterEnd_iff d r2 (a + b) hv (by omega)).2 ?_
    subst e1
    simp only at hq2 e2
    have ey : d.year + (d.month - 1 + 3 * a) / 12 +
        (((d.month - 1 + 3 * a) % 12 + 1 - 1) / 3 * 3 + 2 - 1 + 3 * b) / 12 =
        d.year + (d.month - 1 + 3 * (a + b)) / 12 := by omega
    have em : ((((d.month - 1 + 3 * a) % 12 + 1 - 1) / 3 * 3 + 2 - 1 + 3 * b) % 12 + 1 - 1) / 3 * 3
        + 2 = ((d.month - 1 + 3 * (a + b)) % 12 + 1 - 1) / 3 * 3 + 2 := by omega
    rw [ey, em] at e2
    rw [ey] at hq2
    exact ⟨hq2, e2⟩
  | YearEnd =>
    obtain ⟨hq1, e1⟩ := ((add_month_kinds_iff d r1 a hv (by omega)).2.2.2.1).1 h1
    obtain ⟨hq2, e2⟩ := ((add_month_kinds_iff r1 r2 b hr1 (by omega)).2.2.2.1).1 h2
    refine ((add_month_kinds_iff d r2 (a + b) hv (by omega)).2.2.2.1).2 ?_
    subst e1
    simp only at hq2 e2
    have ey : d.year + (d.month - 1 + a * 12) / 12 + (12 - 1 + b * 12) / 12 =
        d.year + (d.month - 1 + (a + b) * 12) / 12 := by omega
    rw [ey] at e2 hq2
    exact ⟨hq2, e2⟩
  | YearStart =>
    obtain ⟨hq1, e1⟩ := ((add_month_kinds_iff d r1 a hv (by omega)).2.2.2.2).1 h1
    obtain ⟨hq2, e2⟩ := ((add_month_kinds_iff r1 r2 b hr1 (by omega)).2.2.2.2).1 h2
    refine ((add_month_kinds_iff d r2 (a + b) hv (by omega)).2.2.2.2).2 ?_
    subst e1
    simp only at hq2 e2
    have ey : d.year + (d.month - 1 + a * 12) / 12 + (1 - 1 + b * 12) / 12 =
        d.year + (d.month - 1 + (a + b) * 12) / 12 := by omega
    rw [ey] at e2 hq2
    exact ⟨hq2, e2⟩

/-- C20, on the QuarterEnd offset from 2023-02-01: one quarter, then two quarters,
is the same as three quarters. -/
theorem add_additive_witness :
    DateOffset.add ⟨2023, 2, 1⟩ ⟨DateOffset.Type.QuarterEnd, 1 + 2⟩ =
      Except.ok ⟨2023, 11, 30⟩ :=
  add_additive ⟨2023, 2, 1⟩ ⟨2023, 5, 31⟩ ⟨2023, 11, 30⟩ DateOffset.Type.QuarterEnd 1 2
    (by decide) (by decide) (by decide) rfl (by decide) rfl

end pd
